import Mathlib

/-!
# The connection registry of ne7ssh (`src/ne7ssh.cpp`)

A shallow embedding of the registry methods of class `ne7ssh`, of its
constructor and destructor, of `generateKeyPair` and the algorithm lists, and
of the `Ne7SftpSubsystem` wrapper, followed by theorems about them.

Conventions of the embedding.

* `_connections` (a `std::vector<std::shared_ptr<ne7ssh_connection>>`) is a
  `List Conn`; the vector only ever receives pointers obtained from `new`, so
  no entry is null.  A `Conn` carries the address of the object (`addr`, the
  identity compared by `_connections[z] == con`) and the values its inline
  getters report.
* `uint32 i` loop indices are natural numbers: the vector is taken to hold
  fewer than `2^32` entries, so an index never wraps.
* Calls made on collaborators whose code is not in this file (the error sink
  `Ne7sshError`, the methods of `ne7ssh_connection`) are recorded, in order,
  as `Event`s; what such a method returns is supplied by a `ConnApi`.
* The registry lock is always obtained (no `std::system_error`).  Where a
  method releases the lock to sleep, the registry seen after the `k`-th sleep
  is given by an environment `env k`, and the `k`-th reading of `time(NULL)`
  by `clock k` (seconds since the epoch, a natural number).
* `int` has 32 bits and `size_t` 64: a buffer size returned through an `int`
  is `toInt32` of it, and an `int` stored in a `size_t` is `toSizeT` of it.
* A loop that polls is run for a given number of iterations (`fuel`); the
  outcome `Outcome.waiting` says that the loop is still running after them.
  Reading `_connections[i]` with `i` out of range, or reading outside a
  buffer, is `Outcome.ub`.
-/

namespace Ne7ssh

/-! ## Data model -/

/-- One `ne7ssh_connection` object, as seen through the getters that
`ne7ssh.cpp` calls on it. -/
structure Conn where
  /-- Address of the object: the identity of the `shared_ptr`. -/
  addr : Nat
  /-- Value of `getChannelNo()`; written by `setChannelNo(uint32)`. -/
  channelNo : Nat
  /-- Value of `getReceived()`: the receive buffer, one byte per element. -/
  received : List Nat
  /-- Value of `getCmdComplete()`. -/
  cmdComplete : Bool
  /-- Value of `isOpen()`. -/
  isOpen : Bool
  /-- Value of `isConnected()`. -/
  isConnected : Bool
  /-- Value of `isRemoteShell()`. -/
  isRemoteShell : Bool
  /-- Value of `isCmdRunning()`. -/
  isCmdRunning : Bool
  /-- Value of `isCmdClosed()`. -/
  isCmdClosed : Bool
  /-- Value of `getSocket()`. -/
  socket : Nat
  /-- Remaining state of the object, not inspected by `ne7ssh.cpp`. -/
  aux : Nat
deriving DecidableEq, Repr

/-- Calls that leave `ne7ssh.cpp`, in the order they are made. -/
inductive Event where
  /-- Call `errs->push(chan, fmt, args...)`. -/
  | errPush (chan : Int) (fmt : String) (args : List Int)
  /-- Call `errs->deleteChannel(chan)`. -/
  | errDeleteChannel (chan : Int)
  /-- Call `sendData(data)` on the connection at `addr`. -/
  | connSendData (addr : Nat) (data : List Nat)
  /-- Call `sendCmd(cmd)` on the connection at `addr`. -/
  | connSendCmd (addr : Nat) (cmd : List Nat)
  /-- Call `sendClose()` on the connection at `addr`. -/
  | connSendClose (addr : Nat)
  /-- Call `startSftp()` on the connection at `addr`. -/
  | connStartSftp (addr : Nat)
  /-- Call `connectWithPassword(...)` or `connectWithKey(...)` on the
  connection at `addr`. -/
  | connConnect (addr : Nat)
deriving DecidableEq, Repr

/-- What a call returns: its value, the registry it leaves, and the calls it
made on its collaborators. -/
structure Ret (α : Type) where
  val : α
  conns : List Conn
  log : List Event

/-- Outcome of a method that may wait. -/
inductive Outcome (α : Type) where
  /-- The method returned `a`. -/
  | ret (a : α)
  /-- The method read outside the vector or outside a buffer. -/
  | ub
  /-- The method is still in its polling loop. -/
  | waiting
deriving DecidableEq, Repr

/-- Index at which `for (i = 0; i < _connections.size(); i++)` stops when its
body is `if (channel == _connections[i]->getChannelNo()) break;`: the first
index whose connection has that channel number, or the size of the vector. -/
def findChannel (conns : List Conn) (channel : Int) : Nat :=
  conns.findIdx (fun c => decide ((c.channelNo : Int) = channel))

/-! ## `ne7ssh::getChannelNo` -/

/-- The outer loop of `getChannelNo`,
`for (channelID = 1; channelID != 0x7FFFFFFF; channelID++)`, entered at
`channelID` with `fuel` iterations left; the value is `channelID` when the loop
is left. -/
def getChannelNo.loop (conns : List Conn) : Nat → Nat → Nat
  | 0, channelID => channelID
  | fuel + 1, channelID =>
    if channelID = 0x7FFFFFFF then channelID
    else if findChannel conns channelID = conns.length then channelID
    else getChannelNo.loop conns fuel (channelID + 1)

/-- Embedding of `uint32 ne7ssh::getChannelNo()`. -/
def getChannelNo (conns : List Conn) : Ret Nat :=
  if conns.length = 0 then ⟨1, conns, []⟩
  else
    let channelID := getChannelNo.loop conns 0x7FFFFFFF 1
    if channelID = 0x7FFFFFFF then
      ⟨0, conns, [Event.errPush (-1) "Maximum theoretical channel count reached!" []]⟩
    else ⟨channelID, conns, []⟩

/-! ## Methods of `ne7ssh_connection` -/

/-- Results of the methods of `ne7ssh_connection` that `ne7ssh.cpp` calls
(their code is in `ne7ssh_connection.cpp`): each gives what the call returns
and the object as the call leaves it. -/
structure ConnApi where
  /-- Method `void sendData(const char* data)`. -/
  sendData : Conn → List Nat → Conn
  /-- Method `bool sendCmd(const char* cmd)`. -/
  sendCmd : Conn → List Nat → Bool × Conn
  /-- Method `bool sendClose()`. -/
  sendClose : Conn → Bool × Conn
  /-- Method `Ne7sshSftp* startSftp()`; `none` is the null pointer. -/
  startSftp : Conn → Option Nat × Conn
  /-- Method `int connectWithPassword(channelID, host, port, username,
  password, shell, timeout)`, for the arguments of the call at hand. -/
  connectWithPassword : Conn → Int × Conn
  /-- Method `int connectWithKey(channelID, host, port, username,
  privKeyFileName, shell, timeout)`, for the arguments of the call at hand. -/
  connectWithKey : Conn → Int × Conn

/-- The object `c` once a method called on it has left it in the state `c'`:
the object does not move, and it keeps its channel number, which
`ne7ssh.cpp` writes through `setChannelNo` only. -/
def Conn.after (c c' : Conn) : Conn :=
  { c' with addr := c.addr, channelNo := c.channelNo }

/-- Effect of `con->setChannelNo(channelID)` on the registry: the object at
`addr` has its channel number written, every other entry is untouched. -/
def setChannelNo (conns : List Conn) (addr channelID : Nat) : List Conn :=
  conns.map (fun c => if c.addr = addr then { c with channelNo := channelID } else c)

/-- The registry after a method left the object at `c.addr` as `c'`. -/
def store (conns : List Conn) (c' : Conn) : List Conn :=
  conns.map (fun c => if c.addr = c'.addr then c' else c)

/-! ## `ne7ssh::connectWithPassword` and `ne7ssh::connectWithKey` -/

/-- Address returned by `new ne7ssh_connection()`: one that no object of the
registry occupies. -/
def newAddr (conns : List Conn) : Nat :=
  (conns.map (fun c => c.addr)).foldr max 0 + 1

/-- The first locked block of `connectWithPassword` and of `connectWithKey`:
`_connections.push_back(con); channelID = getChannelNo();
con->setChannelNo(channelID);`.  The value is `channelID`. -/
def connectRegister (con : Conn) (conns : List Conn) : Ret Nat :=
  let pushed := conns ++ [con]
  let r := getChannelNo pushed
  ⟨r.val, setChannelNo pushed con.addr r.val, r.log⟩

/-- The locked block run when the attempt returned `-1`: look `con` up by
pointer, report "Unexpected behaviour!" when it is not in the vector, erase it
otherwise.  The value tells whether the erase was reached. -/
def connectCleanup (addr : Nat) (conns : List Conn) : Ret Bool :=
  let z := conns.findIdx (fun c => decide (c.addr = addr))
  if z = conns.length then
    ⟨false, conns, [Event.errPush (-1) "Unexpected behaviour!" []]⟩
  else ⟨true, conns.eraseIdx z, []⟩

/-- Common body of the two connect methods.  `init` is the object as its
constructor leaves it, `attempt` the connection method called on it, and
`during` what the other threads do to the registry while the attempt runs
without the lock. -/
def connectWith (attempt : Conn → Int × Conn) (init : Conn)
    (during : List Conn → List Conn) (conns : List Conn) : Ret Int :=
  let con : Conn := { init with addr := newAddr conns }
  let reg := connectRegister con conns
  let con1 : Conn := { con with channelNo := reg.val }
  let res := attempt con1
  let channel := res.1
  let con2 := con1.after res.2
  let conns2 := during (store reg.conns con2)
  let log2 := reg.log ++ [Event.connConnect con.addr]
  if channel = -1 then
    let cl := connectCleanup con.addr conns2
    if cl.val then ⟨channel, cl.conns, log2 ++ cl.log⟩
    else ⟨-1, cl.conns, log2 ++ cl.log⟩
  else ⟨channel, conns2, log2⟩

/-- Embedding of `int ne7ssh::connectWithPassword(...)`. -/
def connectWithPassword (api : ConnApi) (init : Conn)
    (during : List Conn → List Conn) (conns : List Conn) : Ret Int :=
  connectWith api.connectWithPassword init during conns

/-- Embedding of `int ne7ssh::connectWithKey(...)`. -/
def connectWithKey (api : ConnApi) (init : Conn)
    (during : List Conn → List Conn) (conns : List Conn) : Ret Int :=
  connectWith api.connectWithKey init during conns

/-! ## `ne7ssh::selectThread`, second loop -/

/-- Variables of the second loop of `selectThread`. -/
structure FdPass where
  /-- The vector `_ssh->_connections`. -/
  conns : List Conn
  /-- Sockets passed to `FD_SET(..., &rd)`, in order. -/
  rd : List Nat
  /-- Variable `rfds`. -/
  rfds : Nat
  /-- Variable `fdIsSet`. -/
  fdIsSet : Bool
deriving DecidableEq, Repr

/-- The loop `for (i = 0; i < _ssh->_connections.size(); i++)` that builds the
descriptor set and erases finished connections, entered at index `i` with
`fuel` iterations left. -/
def selectThread.buildFdSet : Nat → Nat → FdPass → FdPass
  | 0, _, s => s
  | fuel + 1, i, s =>
    match s.conns[i]? with
    | none => s
    | some c =>
      let cmdOrShell := c.isRemoteShell || c.isCmdRunning
      if c.isOpen && cmdOrShell then
        selectThread.buildFdSet fuel (i + 1)
          { s with rfds := if s.rfds > c.socket then s.rfds else c.socket,
                   rd := s.rd ++ [c.socket], fdIsSet := true }
      else if (c.isConnected && c.isRemoteShell) || c.isCmdClosed then
        selectThread.buildFdSet fuel (i + 1) { s with conns := s.conns.eraseIdx i }
      else selectThread.buildFdSet fuel (i + 1) s

/-- One run of the second loop of `selectThread` on the registry `conns`; the
loop makes at most `conns.length` iterations. -/
def selectThread.fdPass (conns : List Conn) : FdPass :=
  selectThread.buildFdSet conns.length 0
    { conns := conns, rd := [], rfds := 0, fdIsSet := false }

/-! ## `Ne7SftpSubsystem` -/

/-- The two members of class `Ne7SftpSubsystem`; `sftp = none` is the null
pointer. -/
structure Ne7SftpSubsystem where
  inited : Bool
  sftp : Option Nat
deriving DecidableEq, Repr

/-- Constructor `Ne7SftpSubsystem()`. -/
def Ne7SftpSubsystem.new : Ne7SftpSubsystem :=
  { inited := false, sftp := none }

/-- Constructor `Ne7SftpSubsystem(Ne7sshSftp* _sftp)`. -/
def Ne7SftpSubsystem.ofHandle (_sftp : Option Nat) : Ne7SftpSubsystem :=
  { inited := true, sftp := _sftp }

/-! ## `ne7ssh::send`, `ne7ssh::initSftp`, `ne7ssh::sendCmd`, `ne7ssh::close` -/

/-- Embedding of `bool ne7ssh::send(const char* data, int channel)`. -/
def send (api : ConnApi) (data : List Nat) (channel : Int) (conns : List Conn) : Ret Bool :=
  let i := findChannel conns channel
  match conns[i]? with
  | some c =>
    ⟨true, conns.set i (c.after (api.sendData c data)), [Event.connSendData c.addr data]⟩
  | none =>
    ⟨false, conns, [Event.errPush (-1) "Bad channel: %i specified for sending." [channel]]⟩

/-- Embedding of `bool ne7ssh::initSftp(Ne7SftpSubsystem& _sftp, int channel)`;
the value is the boolean returned together with the caller's `_sftp` as the
call leaves it. -/
def initSftp (api : ConnApi) (_sftp : Ne7SftpSubsystem) (channel : Int)
    (conns : List Conn) : Ret (Bool × Ne7SftpSubsystem) :=
  let i := findChannel conns channel
  match conns[i]? with
  | some c =>
    let res := api.startSftp c
    let conns1 := conns.set i (c.after res.2)
    match res.1 with
    | none => ⟨(false, _sftp), conns1, [Event.connStartSftp c.addr]⟩
    | some h => ⟨(true, Ne7SftpSubsystem.ofHandle (some h)), conns1, [Event.connStartSftp c.addr]⟩
  | none =>
    ⟨(false, _sftp), conns,
      [Event.errPush (-1) "Bad channel: %i specified. Cannot initialize SFTP subsystem." [channel]]⟩

/-- The loop of `sendCmd` for `timeout == 0`, entered at its condition
`!_connections[i]->getCmdComplete()` with `k` sleeps made so far. -/
def sendCmd.waitForever (env : Nat → List Conn) (channel : Int) :
    Nat → Nat → Nat → List Conn → Ret (Outcome Bool)
  | 0, _, _, conns => ⟨Outcome.waiting, conns, []⟩
  | fuel + 1, k, i, conns =>
    match conns[i]? with
    | none => ⟨Outcome.ub, conns, []⟩
    | some c =>
      if c.cmdComplete then ⟨Outcome.ret true, conns, []⟩
      else
        let j := findChannel conns channel
        if j = conns.length then
          ⟨Outcome.ret false, conns,
            [Event.errPush (-1) "Bad channel: %i specified for sending." [channel]]⟩
        else
          match conns[j]? with
          | none => ⟨Outcome.ub, conns, []⟩
          | some d =>
            if !d.cmdComplete then
              sendCmd.waitForever env channel fuel (k + 1) j (env (k + 1))
            else sendCmd.waitForever env channel fuel k j conns

/-- The loop of `sendCmd` for `timeout > 0`, entered at its condition with `k`
sleeps made so far; leaving the loop, by its condition or by `break`, leads to
`return true`. -/
def sendCmd.waitUntil (clock : Nat → Nat) (env : Nat → List Conn) (channel : Int)
    (cutoff : Int) : Nat → Nat → Nat → List Conn → Ret (Outcome Bool)
  | 0, _, _, conns => ⟨Outcome.waiting, conns, []⟩
  | fuel + 1, k, i, conns =>
    match conns[i]? with
    | none => ⟨Outcome.ub, conns, []⟩
    | some c =>
      if c.cmdComplete then ⟨Outcome.ret true, conns, []⟩
      else
        let j := findChannel conns channel
        if j = conns.length then
          ⟨Outcome.ret false, conns,
            [Event.errPush (-1) "Bad channel: %i specified for sending." [channel]]⟩
        else
          match conns[j]? with
          | none => ⟨Outcome.ub, conns, []⟩
          | some d =>
            if !d.cmdComplete then
              if cutoff = 0 then
                sendCmd.waitUntil clock env channel cutoff fuel (k + 1) j (env (k + 1))
              else if (clock (k + 1) : Int) ≥ cutoff then
                ⟨Outcome.ret true, env (k + 1), []⟩
              else sendCmd.waitUntil clock env channel cutoff fuel (k + 1) j (env (k + 1))
            else sendCmd.waitUntil clock env channel cutoff fuel k j conns

/-- Embedding of `bool ne7ssh::sendCmd(const char* cmd, int channel, int
timeout)`, its waiting loop run for at most `fuel` iterations. -/
def sendCmd (api : ConnApi) (clock : Nat → Nat) (env : Nat → List Conn) (fuel : Nat)
    (cmd : List Nat) (channel : Int) (timeout : Int) (conns : List Conn) :
    Ret (Outcome Bool) :=
  let cutoff : Int := if timeout ≠ 0 then (clock 0 : Int) + timeout else 0
  let i := findChannel conns channel
  match conns[i]? with
  | none =>
    ⟨Outcome.ret false, conns,
      [Event.errPush (-1) "Bad channel: %i specified for sending." [channel]]⟩
  | some c =>
    let res := api.sendCmd c cmd
    let conns1 := conns.set i (c.after res.2)
    let called := [Event.connSendCmd c.addr cmd]
    if !res.1 then ⟨Outcome.ret false, conns1, called⟩
    else if timeout = 0 then
      let w := sendCmd.waitForever env channel fuel 0 i conns1
      ⟨w.val, w.conns, called ++ w.log⟩
    else if timeout > 0 then
      let w := sendCmd.waitUntil clock env channel cutoff fuel 0 i conns1
      ⟨w.val, w.conns, called ++ w.log⟩
    else ⟨Outcome.ret true, conns1, called⟩

/-- The loop of `close`: `sendClose()` is called on every connection whose
channel number is `channel`, and `status` holds the last result. -/
def close.loop (api : ConnApi) (channel : Int) : List Conn → Bool → Ret Bool
  | [], status => ⟨status, [], []⟩
  | c :: rest, status =>
    if (c.channelNo : Int) = channel then
      let res := api.sendClose c
      let r := close.loop api channel rest res.1
      ⟨r.val, c.after res.2 :: r.conns, Event.connSendClose c.addr :: r.log⟩
    else
      let r := close.loop api channel rest status
      ⟨r.val, c :: r.conns, r.log⟩

/-- Embedding of `bool ne7ssh::close(int channel)`. -/
def close (api : ConnApi) (channel : Int) (conns : List Conn) : Ret Bool :=
  if channel = -1 then
    ⟨false, conns, [Event.errPush (-1) "Bad channel: %i specified for closing." [channel]]⟩
  else
    let r := close.loop api channel conns false
    ⟨r.val, r.conns, r.log ++ [Event.errDeleteChannel channel]⟩

/-! ## `ne7ssh::read`, `ne7ssh::readBinary`, `ne7ssh::getReceivedSize` -/

/-- Conversion of a size to `int` (32 bits, two's complement). -/
def toInt32 (n : Nat) : Int :=
  if n % 2 ^ 32 < 2 ^ 31 then ((n % 2 ^ 32 : Nat) : Int) else ((n % 2 ^ 32 : Nat) : Int) - 2 ^ 32

/-- Conversion of an `int` to `size_t` (64 bits). -/
def toSizeT (z : Int) : Nat :=
  (z % 2 ^ 64).toNat

/-- The loop of `read` and of `readBinary`: the buffer of the first connection
numbered `channel` whose buffer is not empty; `none` is the null pointer. -/
def read.loop (channel : Int) : List Conn → Option (List Nat)
  | [] => none
  | c :: rest =>
    if (c.channelNo : Int) = channel then
      if c.received.length ≠ 0 then some c.received
      else read.loop channel rest
    else read.loop channel rest

/-- Embedding of `const char* ne7ssh::read(int channel)`; the value is the
buffer the returned pointer points to. -/
def read (channel : Int) (conns : List Conn) : Ret (Option (List Nat)) :=
  if channel = -1 then
    ⟨none, conns, [Event.errPush (-1) "Bad channel: %i specified for reading." [channel]]⟩
  else ⟨read.loop channel conns, conns, []⟩

/-- Embedding of `void* ne7ssh::readBinary(int channel)`. -/
def readBinary (channel : Int) (conns : List Conn) : Ret (Option (List Nat)) :=
  if channel = -1 then
    ⟨none, conns, [Event.errPush (-1) "Bad channel: %i specified for reading." [channel]]⟩
  else ⟨read.loop channel conns, conns, []⟩

/-- The loop of `getReceivedSize`: the first connection numbered `channel`
decides; its buffer size is returned through the local `int size`. -/
def getReceivedSize.loop (channel : Int) : List Conn → Int
  | [] => 0
  | c :: rest =>
    if (c.channelNo : Int) = channel then
      if c.received.length = 0 then 0 else toInt32 c.received.length
    else getReceivedSize.loop channel rest

/-- Embedding of `int ne7ssh::getReceivedSize(int channel)`. -/
def getReceivedSize (channel : Int) (conns : List Conn) : Ret Int :=
  ⟨getReceivedSize.loop channel conns, conns, []⟩

/-! ## `ne7ssh::waitFor` -/

/-- Result of `!memcmp(carret, str, str_len)` for `carret = buffer + p`: `none`
when the `str_len` bytes compared do not all lie in the buffer. -/
def memcmpEq (buffer : List Nat) (p : Nat) (str : List Nat) : Option Bool :=
  if p + str.length ≤ buffer.length then
    some (decide ((buffer.drop p).take str.length = str))
  else none

/-- The loop `while (carretLen <= len)` of `waitFor`, entered with the given
`carretLen` and `carret = buffer + len - carretLen`; `str` holds the bytes of
the pattern before its terminating zero, so `*str` is `str.headD 0`.
`Outcome.ret true` is the `return true` of a match, `Outcome.ret false` the end
of the loop; the loop makes at most `len` iterations, `fuel` bounds them. -/
def waitFor.scan (buffer : List Nat) (len : Nat) (str : List Nat) :
    Nat → Nat → Outcome Bool
  | 0, _ => Outcome.waiting
  | fuel + 1, carretLen =>
    if carretLen ≤ len then
      match buffer[len - carretLen]? with
      | none => Outcome.ub
      | some b =>
        if b = str.headD 0 ∧ str.length ≤ carretLen then
          match memcmpEq buffer (len - carretLen) str with
          | none => Outcome.ub
          | some true => Outcome.ret true
          | some false => waitFor.scan buffer len str fuel (carretLen + 1)
        else waitFor.scan buffer len str fuel (carretLen + 1)
    else Outcome.ret false

/-- One locked block of the loop of `waitFor`: `read`, `getReceivedSize` and
the scan.  `Outcome.ret true` is `return true`; `Outcome.ret false` says that
the block ended without a match.  (The variable `prevLen` is written here and
read nowhere else.) -/
def waitFor.poll (channel : Int) (str : List Nat) (conns : List Conn) :
    Ret (Outcome Bool) :=
  let b := read channel conns
  match b.val with
  | none => ⟨Outcome.ret false, b.conns, b.log⟩
  | some buffer =>
    let sz := getReceivedSize channel b.conns
    let len := toSizeT sz.val
    ⟨waitFor.scan buffer len str (len + 1) 1, sz.conns, b.log ++ sz.log⟩

/-- The loop `while (forever)` of `waitFor`, entered with `k` sleeps made so
far on the registry `conns`. -/
def waitFor.loop (clock : Nat → Nat) (env : Nat → List Conn) (channel : Int)
    (str : List Nat) (cutoff : Nat) : Nat → Nat → List Conn → Ret (Outcome Bool)
  | 0, _, conns => ⟨Outcome.waiting, conns, []⟩
  | fuel + 1, k, conns =>
    let p := waitFor.poll channel str conns
    match p.val with
    | Outcome.ret false =>
      if cutoff = 0 then
        let r := waitFor.loop clock env channel str cutoff fuel (k + 1) (env (k + 1))
        ⟨r.val, r.conns, p.log ++ r.log⟩
      else if clock (k + 1) ≥ cutoff then ⟨Outcome.ret false, env (k + 1), p.log⟩
      else
        let r := waitFor.loop clock env channel str cutoff fuel (k + 1) (env (k + 1))
        ⟨r.val, r.conns, p.log ++ r.log⟩
    | o => ⟨o, p.conns, p.log⟩

/-- Embedding of `bool ne7ssh::waitFor(int channel, const char* str, uint32
timeSec)`, its loop run for at most `fuel` iterations. -/
def waitFor (clock : Nat → Nat) (env : Nat → List Conn) (fuel : Nat) (channel : Int)
    (str : List Nat) (timeSec : Nat) (conns : List Conn) : Ret (Outcome Bool) :=
  let cutoff : Nat := if timeSec ≠ 0 then clock 0 + timeSec else 0
  if channel = -1 then
    ⟨Outcome.ret false, conns,
      [Event.errPush (-1) "Bad channel: %i specified for waiting." [channel]]⟩
  else waitFor.loop clock env channel str cutoff fuel 0 conns

/-! ## Member functions of `Ne7SftpSubsystem` -/

/-- What a member function of `Ne7SftpSubsystem` returns: its value, the state
`world` in which the methods of `Ne7sshSftp` work, and the calls made on the
error sink. -/
structure SftpRet (σ α : Type) where
  val : α
  world : σ
  log : List Event

/-- Results of the methods of class `Ne7sshSftp` (declared in `ne7ssh_sftp.h`):
each takes the object it is called on, the arguments of the call and the state
`σ` it works in, and gives its return value and the state it leaves.
`setTimeout` gives a state only: the wrapper reads no value from it.  For
`getFileAttrs` the value carries the `fileAttrs` written through the reference
argument; for `ls`, `none` is the null pointer. -/
structure SftpApi (σ : Type) where
  setTimeout : Nat → Nat → σ → σ
  openFile : Nat → String → Nat → σ → Nat × σ
  openDir : Nat → String → σ → Nat × σ
  readFile : Nat → Nat → Nat → σ → Bool × σ
  writeFile : Nat → Nat → List Nat → Nat → Nat → σ → Bool × σ
  closeFile : Nat → Nat → σ → Bool × σ
  getFileAttrs : Nat → Nat → String → Bool → σ → (Bool × Nat) × σ
  get : Nat → String → Nat → σ → Bool × σ
  put : Nat → Nat → String → σ → Bool × σ
  rm : Nat → String → σ → Bool × σ
  mv : Nat → String → String → σ → Bool × σ
  mkdir : Nat → String → σ → Bool × σ
  rmdir : Nat → String → σ → Bool × σ
  ls : Nat → String → Bool → σ → Option String × σ
  cd : Nat → String → σ → Bool × σ
  chmod : Nat → String → String → σ → Bool × σ
  chown : Nat → String → Nat → Nat → σ → Bool × σ
  isFile : Nat → String → σ → Bool × σ
  isDir : Nat → String → σ → Bool × σ

/-- Embedding of `bool Ne7SftpSubsystem::errorNotInited()`: the value returned
and the call made on the error sink. -/
def Ne7SftpSubsystem.errorNotInited : Bool × List Event :=
  (false, [Event.errPush (-1) "This SFTP system has not been initialized." []])

/-- Conversion of a `bool` to `uint32`. -/
def boolToUInt32 (b : Bool) : Nat :=
  if b then 1 else 0

/-- The shape shared by the member functions:
`if (!inited) return failure; return sftp->method(...);`.  The result is `none`
when `sftp` is dereferenced while null. -/
def Ne7SftpSubsystem.run {σ α : Type} (s : Ne7SftpSubsystem) (failure : α)
    (method : Nat → σ → α × σ) (w : σ) : Option (SftpRet σ α) :=
  if !s.inited then some ⟨failure, w, Ne7SftpSubsystem.errorNotInited.2⟩
  else
    match s.sftp with
    | none => none
    | some h => some ⟨(method h w).1, (method h w).2, []⟩

/-- Embedding of `bool Ne7SftpSubsystem::setTimeout(uint32 _timeout)`:
`sftp->setTimeout(_timeout); return true;`. -/
def Ne7SftpSubsystem.setTimeout {σ : Type} (api : SftpApi σ) (s : Ne7SftpSubsystem)
    (_timeout : Nat) (w : σ) : Option (SftpRet σ Bool) :=
  s.run Ne7SftpSubsystem.errorNotInited.1 (fun h v => (true, api.setTimeout h _timeout v)) w

/-- Embedding of `uint32 Ne7SftpSubsystem::openFile(const char*, uint8)`. -/
def Ne7SftpSubsystem.openFile {σ : Type} (api : SftpApi σ) (s : Ne7SftpSubsystem)
    (filename : String) (mode : Nat) (w : σ) :
    Option (SftpRet σ Nat) :=
  s.run (boolToUInt32 Ne7SftpSubsystem.errorNotInited.1)
    (fun h v => api.openFile h filename mode v) w

/-- Embedding of `uint32 Ne7SftpSubsystem::openDir(const char*)`. -/
def Ne7SftpSubsystem.openDir {σ : Type} (api : SftpApi σ) (s : Ne7SftpSubsystem)
    (dirname : String) (w : σ) : Option (SftpRet σ Nat) :=
  s.run (boolToUInt32 Ne7SftpSubsystem.errorNotInited.1)
    (fun h v => api.openDir h dirname v) w

/-- Embedding of `bool Ne7SftpSubsystem::readFile(uint32, uint64)`. -/
def Ne7SftpSubsystem.readFile {σ : Type} (api : SftpApi σ) (s : Ne7SftpSubsystem)
    (fileID offset : Nat) (w : σ) : Option (SftpRet σ Bool) :=
  s.run Ne7SftpSubsystem.errorNotInited.1 (fun h v => api.readFile h fileID offset v) w

/-- Embedding of `bool Ne7SftpSubsystem::writeFile(uint32, const uint8*,
uint32, uint64)`. -/
def Ne7SftpSubsystem.writeFile {σ : Type} (api : SftpApi σ) (s : Ne7SftpSubsystem)
    (fileID : Nat) (data : List Nat) (len offset : Nat) (w : σ) :
    Option (SftpRet σ Bool) :=
  s.run Ne7SftpSubsystem.errorNotInited.1
    (fun h v => api.writeFile h fileID data len offset v) w

/-- Embedding of `bool Ne7SftpSubsystem::closeFile(uint32)`. -/
def Ne7SftpSubsystem.closeFile {σ : Type} (api : SftpApi σ) (s : Ne7SftpSubsystem)
    (fileID : Nat) (w : σ) : Option (SftpRet σ Bool) :=
  s.run Ne7SftpSubsystem.errorNotInited.1 (fun h v => api.closeFile h fileID v) w

/-- Embedding of `bool Ne7SftpSubsystem::getFileAttrs(fileAttrs&, const char*,
bool)`; the value pairs the boolean with `attrs` as the call leaves it. -/
def Ne7SftpSubsystem.getFileAttrs {σ : Type} (api : SftpApi σ) (s : Ne7SftpSubsystem)
    (attrs : Nat) (filename : String) (followSymLinks : Bool)
    (w : σ) : Option (SftpRet σ (Bool × Nat)) :=
  s.run (Ne7SftpSubsystem.errorNotInited.1, attrs)
    (fun h v => api.getFileAttrs h attrs filename followSymLinks v) w

/-- Embedding of `bool Ne7SftpSubsystem::get(const char*, FILE*)`. -/
def Ne7SftpSubsystem.get {σ : Type} (api : SftpApi σ) (s : Ne7SftpSubsystem)
    (remoteFile : String) (localFile : Nat) (w : σ) :
    Option (SftpRet σ Bool) :=
  s.run Ne7SftpSubsystem.errorNotInited.1 (fun h v => api.get h remoteFile localFile v) w

/-- Embedding of `bool Ne7SftpSubsystem::put(FILE*, const char*)`. -/
def Ne7SftpSubsystem.put {σ : Type} (api : SftpApi σ) (s : Ne7SftpSubsystem)
    (localFile : Nat) (remoteFile : String) (w : σ) :
    Option (SftpRet σ Bool) :=
  s.run Ne7SftpSubsystem.errorNotInited.1 (fun h v => api.put h localFile remoteFile v) w

/-- Embedding of `bool Ne7SftpSubsystem::rm(const char*)`. -/
def Ne7SftpSubsystem.rm {σ : Type} (api : SftpApi σ) (s : Ne7SftpSubsystem)
    (remoteFile : String) (w : σ) : Option (SftpRet σ Bool) :=
  s.run Ne7SftpSubsystem.errorNotInited.1 (fun h v => api.rm h remoteFile v) w

/-- Embedding of `bool Ne7SftpSubsystem::mv(const char*, const char*)`. -/
def Ne7SftpSubsystem.mv {σ : Type} (api : SftpApi σ) (s : Ne7SftpSubsystem)
    (oldFile newFile : String) (w : σ) : Option (SftpRet σ Bool) :=
  s.run Ne7SftpSubsystem.errorNotInited.1 (fun h v => api.mv h oldFile newFile v) w

/-- Embedding of `bool Ne7SftpSubsystem::mkdir(const char*)`. -/
def Ne7SftpSubsystem.mkdir {σ : Type} (api : SftpApi σ) (s : Ne7SftpSubsystem)
    (remoteDir : String) (w : σ) : Option (SftpRet σ Bool) :=
  s.run Ne7SftpSubsystem.errorNotInited.1 (fun h v => api.mkdir h remoteDir v) w

/-- Embedding of `bool Ne7SftpSubsystem::rmdir(const char*)`. -/
def Ne7SftpSubsystem.rmdir {σ : Type} (api : SftpApi σ) (s : Ne7SftpSubsystem)
    (remoteDir : String) (w : σ) : Option (SftpRet σ Bool) :=
  s.run Ne7SftpSubsystem.errorNotInited.1 (fun h v => api.rmdir h remoteDir v) w

/-- Embedding of `const char* Ne7SftpSubsystem::ls(const char*, bool)`:
`if (!inited) { errorNotInited(); return 0; }`. -/
def Ne7SftpSubsystem.ls {σ : Type} (api : SftpApi σ) (s : Ne7SftpSubsystem)
    (remoteDir : String) (longNames : Bool) (w : σ) :
    Option (SftpRet σ (Option String)) :=
  s.run none (fun h v => api.ls h remoteDir longNames v) w

/-- Embedding of `bool Ne7SftpSubsystem::cd(const char*)`. -/
def Ne7SftpSubsystem.cd {σ : Type} (api : SftpApi σ) (s : Ne7SftpSubsystem)
    (remoteDir : String) (w : σ) : Option (SftpRet σ Bool) :=
  s.run Ne7SftpSubsystem.errorNotInited.1 (fun h v => api.cd h remoteDir v) w

/-- Embedding of `bool Ne7SftpSubsystem::chmod(const char*, const char*)`. -/
def Ne7SftpSubsystem.chmod {σ : Type} (api : SftpApi σ) (s : Ne7SftpSubsystem)
    (remoteFile mode : String) (w : σ) : Option (SftpRet σ Bool) :=
  s.run Ne7SftpSubsystem.errorNotInited.1 (fun h v => api.chmod h remoteFile mode v) w

/-- Embedding of `bool Ne7SftpSubsystem::chown(const char*, uint32_t,
uint32_t)`. -/
def Ne7SftpSubsystem.chown {σ : Type} (api : SftpApi σ) (s : Ne7SftpSubsystem)
    (remoteFile : String) (uid gid : Nat) (w : σ) :
    Option (SftpRet σ Bool) :=
  s.run Ne7SftpSubsystem.errorNotInited.1 (fun h v => api.chown h remoteFile uid gid v) w

/-- Embedding of `bool Ne7SftpSubsystem::isFile(const char*)`. -/
def Ne7SftpSubsystem.isFile {σ : Type} (api : SftpApi σ) (s : Ne7SftpSubsystem)
    (remoteFile : String) (w : σ) : Option (SftpRet σ Bool) :=
  s.run Ne7SftpSubsystem.errorNotInited.1 (fun h v => api.isFile h remoteFile v) w

/-- Embedding of `bool Ne7SftpSubsystem::isDir(const char*)`. -/
def Ne7SftpSubsystem.isDir {σ : Type} (api : SftpApi σ) (s : Ne7SftpSubsystem)
    (remoteFile : String) (w : σ) : Option (SftpRet σ Bool) :=
  s.run Ne7SftpSubsystem.errorNotInited.1 (fun h v => api.isDir h remoteFile v) w

/-! ## Algorithm lists -/

/-- Constant `ne7ssh::MAC_ALGORITHMS`; `demoBuild` says whether `_DEMO_BUILD`
is defined. -/
def MAC_ALGORITHMS (demoBuild : Bool) : String :=
  if demoBuild then "none" else "hmac-md5,hmac-sha1,none"

/-- Constant `ne7ssh::CIPHER_ALGORITHMS`. -/
def CIPHER_ALGORITHMS (demoBuild : Bool) : String :=
  if demoBuild then "3des-cbc"
  else "aes256-cbc,aes192-cbc,twofish-cbc,twofish256-cbc,blowfish-cbc,3des-cbc,aes128-cbc,cast128-cbc"

/-- Constant `ne7ssh::KEX_ALGORITHMS`. -/
def KEX_ALGORITHMS (demoBuild : Bool) : String :=
  if demoBuild then "diffie-hellman-group1-sha1"
  else "diffie-hellman-group1-sha1,diffie-hellman-group14-sha1"

/-- Constant `ne7ssh::HOSTKEY_ALGORITHMS`. -/
def HOSTKEY_ALGORITHMS (demoBuild : Bool) : String :=
  if demoBuild then "ssh-dss" else "ssh-dss,ssh-rsa"

/-- Constant `ne7ssh::COMPRESSION_ALGORITHMS`, the same in both builds. -/
def COMPRESSION_ALGORITHMS : String :=
  "none"

/-- The names of a comma-separated list, read from the characters left, with
`cur` the characters of the current name, last first. -/
def splitNames.go : List Char → List Char → List String
  | [], cur => [String.mk cur.reverse]
  | c :: cs, cur =>
    if c = ',' then String.mk cur.reverse :: splitNames.go cs []
    else splitNames.go cs (c :: cur)

/-- The names of a name-list: the list split on its commas. -/
def splitNames (s : String) : List String :=
  splitNames.go s.toList []

/-- The key-exchange menu of the spec (section 4.B, "Supported menu"). -/
def specMenuKex : List String :=
  ["diffie-hellman-group1-sha1", "diffie-hellman-group14-sha1"]

/-- The host-key menu of the spec. -/
def specMenuHostKey : List String :=
  ["ssh-dss", "ssh-rsa"]

/-- The cipher menu of the spec. -/
def specMenuCipher : List String :=
  ["aes128-cbc", "aes192-cbc", "aes256-cbc", "3des-cbc", "blowfish-cbc", "cast128-cbc",
    "twofish-cbc", "twofish256-cbc"]

/-- The MAC menu of the spec. -/
def specMenuMac : List String :=
  ["hmac-sha1", "hmac-md5", "none"]

/-- The compression menu of the spec. -/
def specMenuCompression : List String :=
  ["none"]

/-! ## `ne7ssh::generateKeyPair` -/

/-- Results of the two generators of class `ne7ssh_keys` (their code is in
`ne7ssh_keys.cpp`), given the comment, the two file names and the key size;
`none` is the call that passes no key size. -/
structure KeysApi where
  /-- Method `bool generateDSAKeys(fqdn, privKeyFileName, pubKeyFileName
  [, keySize])`. -/
  generateDSAKeys : String → String → String → Option Nat → Bool
  /-- Method `bool generateRSAKeys(fqdn, privKeyFileName, pubKeyFileName
  [, keySize])`. -/
  generateRSAKeys : String → String → String → Option Nat → Bool

/-- Calls made on the `ne7ssh_keys` object. -/
inductive KeyCall where
  /-- Call of `generateDSAKeys`. -/
  | dsa (fqdn privKeyFileName pubKeyFileName : String) (keySize : Option Nat)
  /-- Call of `generateRSAKeys`. -/
  | rsa (fqdn privKeyFileName pubKeyFileName : String) (keySize : Option Nat)
deriving DecidableEq, Repr

/-- What `generateKeyPair` returns: its value, its calls on the error log and
its calls on the key generators. -/
structure KeyGenRet where
  val : Outcome Bool
  log : List Event
  calls : List KeyCall

/-- The bytes of a string of ASCII characters. -/
def ascii (s : String) : List Nat :=
  s.toList.map Char.toNat

/-- Result of `!memcmp(type, lit, 3)`, where `type` holds the bytes of the
argument before its terminating zero: the first three bytes of the argument,
terminator included, are those of `lit`; `none` when the argument, terminator
included, has fewer than three bytes, so that `memcmp` reads past its end. -/
def memcmp3 (type lit : List Nat) : Option Bool :=
  if 3 ≤ (type ++ [0]).length then some (decide ((type ++ [0]).take 3 = lit.take 3))
  else none

/-- Embedding of `bool ne7ssh::generateKeyPair(const char* type, const char*
fqdn, const char* privKeyFileName, const char* pubKeyFileName, uint16
keySize)`; `type` holds the bytes of the argument before its terminating
zero.  The argument `0` of the error pushed is the value of `UNKNOWN`. -/
def generateKeyPair (api : KeysApi) (type : List Nat) (fqdn privKeyFileName pubKeyFileName : String)
    (keySize : Nat) : KeyGenRet :=
  let size : Option Nat := if keySize = 0 then none else some keySize
  let unknown : KeyGenRet :=
    ⟨Outcome.ret false,
      [Event.errPush (-1) "The specfied key algorithm: %i not supported" [0]], []⟩
  match memcmp3 type (ascii "dsa") with
  | none => ⟨Outcome.ub, [], []⟩
  | some true =>
    ⟨Outcome.ret (api.generateDSAKeys fqdn privKeyFileName pubKeyFileName size), [],
      [KeyCall.dsa fqdn privKeyFileName pubKeyFileName size]⟩
  | some false =>
    match memcmp3 type (ascii "rsa") with
    | none => ⟨Outcome.ub, [], []⟩
    | some true =>
      ⟨Outcome.ret (api.generateRSAKeys fqdn privKeyFileName pubKeyFileName size), [],
        [KeyCall.rsa fqdn privKeyFileName pubKeyFileName size]⟩
    | some false => unknown

/-- Key generators that always succeed; used to write concrete runs. -/
def okKeys : KeysApi :=
  { generateDSAKeys := fun _ _ _ _ => true,
    generateRSAKeys := fun _ _ _ _ => true }

/-! ## Constructor `ne7ssh::ne7ssh` -/

/-- The static members of class `ne7ssh` and the reactor threads of the
process. -/
structure Process where
  /-- Address of the `Ne7sshError` object `errs` points to (`0` is `NULL`). -/
  errs : Nat
  /-- Records pushed onto that object. -/
  errLog : List Event
  /-- Static member `running`. -/
  running : Bool
  /-- Address of the object `rng` points to (`0` is `NULL`). -/
  rng : Nat
  /-- Number of reactor threads started. -/
  threads : Nat
deriving DecidableEq, Repr

/-- The members of one `ne7ssh` object that its constructor writes. -/
structure Instance where
  /-- Member `init`, when it was assigned. -/
  init : Option Nat
  /-- Whether `_selectThread` was given a thread. -/
  hasThread : Bool
deriving DecidableEq, Repr

/-- Embedding of the constructor `ne7ssh::ne7ssh()`; `newErrs`, `newInit` and
`newRng` are the addresses the three `new` expressions return. -/
def ne7ssh (newErrs newInit newRng : Nat) (p : Process) : Process × Instance :=
  let p1 : Process := { p with errs := newErrs, errLog := [] }
  if p1.running then
    ({ p1 with
        errLog := p1.errLog ++
          [Event.errPush (-1)
            "Cannot initialize more than more instance of ne7ssh class within the same application. Aborting."
            []] },
      { init := none, hasThread := false })
  else
    ({ p1 with running := true, rng := newRng, threads := p1.threads + 1 },
      { init := some newInit, hasThread := true })

/-! ## Destructor `ne7ssh::~ne7ssh` -/

/-- The loop `for (i = 0; i < _connections.size(); i++) close(i);` of the
destructor, entered at index `i` with `fuel` iterations left: `close` receives
the index `i`, converted to its parameter `int channel`. -/
def ne7ssh.destructor.closeLoop (api : ConnApi) : Nat → Nat → List Conn → Ret Unit
  | 0, _, conns => ⟨(), conns, []⟩
  | fuel + 1, i, conns =>
    if i < conns.length then
      let r := close api (toInt32 i) conns
      let rest := ne7ssh.destructor.closeLoop api fuel (i + 1) r.conns
      ⟨(), rest.conns, r.log ++ rest.log⟩
    else ⟨(), conns, []⟩

/-- Embedding of the destructor `ne7ssh::~ne7ssh()`: `running` is cleared, the
close loop runs under the lock (it makes at most `conns.length` iterations),
the reactor thread is joined, the vector is cleared and `errs` and `rng` are
deleted and zeroed.  The value is the process afterwards; `conns` is the
vector afterwards and `log` the calls of the close loop. -/
def ne7ssh.destructor (api : ConnApi) (p : Process) (conns : List Conn) : Ret Process :=
  let closed := ne7ssh.destructor.closeLoop api conns.length 0 conns
  ⟨{ p with running := false, errs := 0, errLog := [], rng := 0 }, [], closed.log⟩

/-! ## Vocabulary of the statements -/

/-- No connection of the registry has channel number `c`. -/
def ChannelFree (conns : List Conn) (c : Nat) : Prop :=
  ∀ x ∈ conns, x.channelNo ≠ c

/-- The channel id `channel` is the channel number of a registered
connection. -/
def Registered (conns : List Conn) (channel : Int) : Prop :=
  ∃ x ∈ conns, (x.channelNo : Int) = channel

/-- The channel numbers of the registered connections are pairwise
distinct. -/
def DistinctChannels (conns : List Conn) : Prop :=
  (conns.map (fun c => c.channelNo)).Nodup

/-- A connection with the given address and channel number and nothing else
set; used to write concrete registries. -/
def mkConn (addr channelNo : Nat) : Conn :=
  { addr := addr, channelNo := channelNo, received := [], cmdComplete := false,
    isOpen := false, isConnected := false, isRemoteShell := false,
    isCmdRunning := false, isCmdClosed := false, socket := 0, aux := 0 }

/-- The connection numbered `channel` is found at index `i` of the registry
and its command-complete flag is false. -/
def WaitingAt (conns : List Conn) (channel : Int) (i : Nat) : Prop :=
  findChannel conns channel = i ∧ ∃ d, conns[i]? = some d ∧ d.cmdComplete = false

/-- A `ConnApi` whose calls all succeed and leave the object as it is; used to
write concrete runs. -/
def okApi : ConnApi :=
  { sendData := fun c _ => c,
    sendCmd := fun c _ => (true, c),
    sendClose := fun c => (true, c),
    startSftp := fun c => (some 1, c),
    connectWithPassword := fun c => ((c.channelNo : Int), c),
    connectWithKey := fun c => ((c.channelNo : Int), c) }

/-- The pattern `str` stands in `buffer` at position `p`. -/
def MatchAt (buffer : List Nat) (p : Nat) (str : List Nat) : Prop :=
  (buffer.drop p).take str.length = str

instance MatchAt.decidable (buffer : List Nat) (p : Nat) (str : List Nat) :
    Decidable (MatchAt buffer p str) := by
  unfold MatchAt
  infer_instance

/-- No receive buffer of a connection numbered `channel` contains the pattern
`str` as a contiguous run of bytes. -/
def NeverContains (conns : List Conn) (channel : Int) (str : List Nat) : Prop :=
  ∀ c ∈ conns, (c.channelNo : Int) = channel → ¬ str <:+: c.received

/-- The receive buffers of the connections numbered `channel` are shorter than
`2^31` bytes: their size is a non-negative `int`. -/
def BufferFitsInt (conns : List Conn) (channel : Int) : Prop :=
  ∀ c ∈ conns, (c.channelNo : Int) = channel → c.received.length < 2 ^ 31

/-- The test of the first branch of the second loop of `selectThread`: the
connection is open and runs a remote shell or a command. -/
def Conn.live (c : Conn) : Bool :=
  c.isOpen && (c.isRemoteShell || c.isCmdRunning)

/-- The connection is finished: it is not `live`, and it is connected with a
remote shell or its command is closed.  This is the test under which the
second loop of `selectThread` erases the connection it examines. -/
def Conn.finished (c : Conn) : Bool :=
  !c.live && ((c.isConnected && c.isRemoteShell) || c.isCmdClosed)

/-- The registry in place when the connection attempt of `connectWith` has
returned: the new connection was pushed and numbered, the attempt has worked
on it, and the other threads have done `during`. -/
def connectWith.attempted (attempt : Conn → Int × Conn) (init : Conn)
    (during : List Conn → List Conn) (conns : List Conn) : List Conn :=
  during (store
    (connectRegister { init with addr := newAddr conns } conns).conns
    (Conn.after
      { init with
        addr := newAddr conns,
        channelNo := (connectRegister { init with addr := newAddr conns } conns).val }
      (attempt
        { init with
          addr := newAddr conns,
          channelNo := (connectRegister { init with addr := newAddr conns } conns).val }).2))

/-- A `ConnApi` whose connection attempts fail with `-1`; its other calls are
those of `okApi`. -/
def failApi : ConnApi :=
  { okApi with
    connectWithPassword := fun c => (-1, c),
    connectWithKey := fun c => (-1, c) }

/-- The new connection as `connectWith` hands it to the connection attempt:
constructed, placed at a new address and numbered by `getChannelNo`. -/
def connectWith.numbered (init : Conn) (conns : List Conn) : Conn :=
  { init with
    addr := newAddr conns,
    channelNo := (connectRegister { init with addr := newAddr conns } conns).val }

/-! ## Lemmas on the channel search -/

theorem findChannel_eq_length_iff (conns : List Conn) (channel : Int) :
    findChannel conns channel = conns.length ↔ ¬ Registered conns channel := by
  unfold findChannel Registered
  rw [List.findIdx_eq_length]
  simp

theorem findChannel_le_length (conns : List Conn) (channel : Int) :
    findChannel conns channel ≤ conns.length :=
  List.findIdx_le_length _

theorem findChannel_nat_eq_length_iff (conns : List Conn) (c : Nat) :
    findChannel conns (c : Int) = conns.length ↔ ChannelFree conns c := by
  rw [findChannel_eq_length_iff]
  unfold Registered ChannelFree
  simp

theorem getElem?_findChannel_eq_none_iff (conns : List Conn) (channel : Int) :
    conns[findChannel conns channel]? = none ↔ ¬ Registered conns channel := by
  rw [← findChannel_eq_length_iff, List.getElem?_eq_none_iff]
  have := findChannel_le_length conns channel
  omega

theorem getElem?_findChannel_of_registered {conns : List Conn} {channel : Int}
    (h : Registered conns channel) :
    ∃ c, conns[findChannel conns channel]? = some c ∧ c ∈ conns ∧
      (c.channelNo : Int) = channel := by
  have hlt : findChannel conns channel < conns.length := by
    have h1 := findChannel_le_length conns channel
    have h2 := (findChannel_eq_length_iff conns channel).not.mpr (not_not.mpr h)
    omega
  refine ⟨conns[findChannel conns channel], List.getElem?_eq_getElem hlt,
    List.getElem_mem _, ?_⟩
  have hget : conns[findChannel conns channel]? = some conns[findChannel conns channel] :=
    List.getElem?_eq_getElem hlt
  have := List.findIdx_of_getElem?_eq_some hget
  simpa using this

/-! ## `getChannelNo` -/

theorem getChannelNo_loop_spec (conns : List Conn) :
    ∀ fuel s : Nat, s ≤ 0x7FFFFFFF → 0x7FFFFFFF - s ≤ fuel →
      s ≤ getChannelNo.loop conns fuel s ∧
      getChannelNo.loop conns fuel s ≤ 0x7FFFFFFF ∧
      (∀ c, s ≤ c → c < getChannelNo.loop conns fuel s → ¬ ChannelFree conns c) ∧
      (getChannelNo.loop conns fuel s < 0x7FFFFFFF →
        ChannelFree conns (getChannelNo.loop conns fuel s)) := by
  intro fuel
  induction fuel with
  | zero =>
    intro s hs hf
    have : s = 0x7FFFFFFF := by omega
    subst this
    simp only [getChannelNo.loop]
    exact ⟨le_refl _, le_refl _, fun c h1 h2 => by omega, fun h => by omega⟩
  | succ n ih =>
    intro s hs hf
    unfold getChannelNo.loop
    by_cases h1 : s = 0x7FFFFFFF
    · subst h1
      simp only [if_true]
      exact ⟨le_refl _, le_refl _, fun c h1 h2 => by omega, fun h => by omega⟩
    · rw [if_neg h1]
      by_cases h2 : findChannel conns (s : Int) = conns.length
      · rw [if_pos h2]
        refine ⟨le_refl _, hs, ?_, ?_⟩
        · intro c hc hc'
          omega
        · intro _
          exact (findChannel_nat_eq_length_iff conns s).mp h2
      · rw [if_neg h2]
        obtain ⟨a1, a2, a3, a4⟩ := ih (s + 1) (by omega) (by omega)
        refine ⟨by omega, a2, ?_, a4⟩
        intro c hc hc'
        by_cases hcs : c = s
        · subst hcs
          exact fun hfree => h2 ((findChannel_nat_eq_length_iff conns c).mpr hfree)
        · exact a3 c (by omega) hc'

/-- C1: for every registry, `getChannelNo` returns a value below `0x7FFFFFFF`
and leaves the registry as it is; when some `c` with `1 ≤ c < 0x7FFFFFFF` is the
channel number of no connection, the value returned is the smallest such `c`
and nothing is pushed onto the error log; when there is no such `c`, one
"Maximum theoretical channel count reached!" error is pushed and `0` is
returned; for the empty registry the value is `1`. -/
theorem getChannelNo_smallest_free (conns : List Conn) :
    (getChannelNo conns).val < 0x7FFFFFFF ∧
    (getChannelNo conns).conns = conns ∧
    (∀ c, 1 ≤ c → c < 0x7FFFFFFF → ChannelFree conns c →
      1 ≤ (getChannelNo conns).val ∧ ChannelFree conns (getChannelNo conns).val ∧
      (getChannelNo conns).val ≤ c ∧ (getChannelNo conns).log = []) ∧
    ((∀ c, 1 ≤ c → c < 0x7FFFFFFF → ¬ ChannelFree conns c) →
      (getChannelNo conns).val = 0 ∧
      (getChannelNo conns).log =
        [Event.errPush (-1) "Maximum theoretical channel count reached!" []]) ∧
    (conns = [] → (getChannelNo conns).val = 1) := by
  obtain ⟨a1, a2, a3, a4⟩ := getChannelNo_loop_spec conns 0x7FFFFFFF 1 (by omega) (by omega)
  unfold getChannelNo
  by_cases h0 : conns.length = 0
  · have hnil : conns = [] := List.length_eq_zero.mp h0
    subst hnil
    simp [ChannelFree]
    exact ⟨fun c hc _ => hc, ⟨1, le_refl _, by omega⟩⟩
  · rw [if_neg h0]
    by_cases hfull : getChannelNo.loop conns 0x7FFFFFFF 1 = 0x7FFFFFFF
    · simp only [hfull, if_true]
      refine ⟨by omega, trivial, ?_, ?_, ?_⟩
      · intro c hc1 hc2 hfree
        exact absurd hfree (a3 c hc1 (by omega))
      · intro _
        exact ⟨trivial, trivial⟩
      · intro hnil
        simp [hnil] at h0
    · simp only [if_neg hfull]
      have hlt : getChannelNo.loop conns 0x7FFFFFFF 1 < 0x7FFFFFFF := by omega
      refine ⟨hlt, trivial, ?_, ?_, ?_⟩
      · intro c hc1 hc2 hfree
        refine ⟨a1, a4 hlt, ?_, trivial⟩
        by_contra hgt
        exact a3 c hc1 (by omega) hfree
      · intro hnone
        exact absurd (a4 hlt) (hnone _ a1 hlt)
      · intro hnil
        simp [hnil] at h0

theorem getChannelNo_smallest_free_witness :
    (getChannelNo [mkConn 7 1, mkConn 8 2, mkConn 9 4]).val = 3 ∧
    (getChannelNo ((List.range 0x7FFFFFFE).map (fun n => mkConn n (n + 1)))).val = 0 ∧
    (getChannelNo ((List.range 0x7FFFFFFE).map (fun n => mkConn n (n + 1)))).log =
      [Event.errPush (-1) "Maximum theoretical channel count reached!" []] :=
  have hfull := (getChannelNo_smallest_free
    ((List.range 0x7FFFFFFE).map (fun n => mkConn n (n + 1)))).2.2.2.1
    (fun c h1 h2 hfree =>
      hfree (mkConn (c - 1) c)
        (List.mem_map.mpr ⟨c - 1, List.mem_range.mpr (by omega), by
          have : c - 1 + 1 = c := by omega
          rw [this]⟩)
        rfl)
  have hsmall := (getChannelNo_smallest_free [mkConn 7 1, mkConn 8 2, mkConn 9 4]).2.2.1 3
    (by decide) (by decide) (by unfold ChannelFree; decide)
  ⟨by
    have h1 := hsmall.2.1
    have h2 := hsmall.2.2.1
    have h3 := hsmall.1
    have hne1 : (getChannelNo [mkConn 7 1, mkConn 8 2, mkConn 9 4]).val ≠ 1 :=
      fun e => (e ▸ h1) (mkConn 7 1) (by simp) rfl
    have hne2 : (getChannelNo [mkConn 7 1, mkConn 8 2, mkConn 9 4]).val ≠ 2 :=
      fun e => (e ▸ h1) (mkConn 8 2) (by simp) rfl
    omega,
   hfull.1, hfull.2⟩

theorem getChannelNo_val_free (conns : List Conn) (h : (getChannelNo conns).val ≠ 0) :
    ChannelFree conns (getChannelNo conns).val := by
  obtain ⟨_, _, _, a4⟩ := getChannelNo_loop_spec conns 0x7FFFFFFF 1 (by omega) (by omega)
  unfold getChannelNo at h ⊢
  by_cases h0 : conns.length = 0
  · have hnil : conns = [] := List.length_eq_zero.mp h0
    subst hnil
    simp [ChannelFree]
  · rw [if_neg h0] at h ⊢
    by_cases hfull : getChannelNo.loop conns 0x7FFFFFFF 1 = 0x7FFFFFFF
    · simp [hfull] at h
    · simp only [if_neg hfull]
      exact a4 (by
        have := (getChannelNo_loop_spec conns 0x7FFFFFFF 1 (by omega) (by omega)).2.1
        omega)

theorem getChannelNo_log_of_val_ne_zero (conns : List Conn) (h : (getChannelNo conns).val ≠ 0) :
    (getChannelNo conns).log = [] := by
  unfold getChannelNo at h ⊢
  by_cases h0 : conns.length = 0
  · simp [h0]
  · rw [if_neg h0] at h ⊢
    by_cases hfull : getChannelNo.loop conns 0x7FFFFFFF 1 = 0x7FFFFFFF
    · simp [hfull] at h
    · simp only [if_neg hfull]

/-! ## Uniqueness of channel numbers -/

theorem le_foldr_max (l : List Nat) : ∀ x ∈ l, x ≤ l.foldr max 0 := by
  induction l with
  | nil => simp
  | cons a t ih =>
    intro x hx
    simp only [List.foldr_cons]
    rcases List.mem_cons.mp hx with h | h
    · subst h
      exact le_max_left _ _
    · exact le_trans (ih x h) (le_max_right _ _)

theorem newAddr_fresh (conns : List Conn) : ∀ c ∈ conns, c.addr ≠ newAddr conns := by
  intro c hc
  have := le_foldr_max (conns.map (fun c => c.addr)) c.addr (List.mem_map_of_mem _ hc)
  unfold newAddr
  omega

theorem setChannelNo_push_fresh (conns : List Conn) (con : Conn) (id : Nat)
    (hfresh : ∀ c ∈ conns, c.addr ≠ con.addr) :
    setChannelNo (conns ++ [con]) con.addr id = conns ++ [{ con with channelNo := id }] := by
  unfold setChannelNo
  rw [List.map_append]
  congr 1
  · conv_rhs => rw [← List.map_id conns]
    apply List.map_congr_left
    intro c hc
    simp [hfresh c hc]
  · simp

theorem buildFdSet_sublist :
    ∀ (fuel i : Nat) (s : FdPass), (selectThread.buildFdSet fuel i s).conns.Sublist s.conns := by
  intro fuel
  induction fuel with
  | zero =>
    intro i s
    simp [selectThread.buildFdSet]
  | succ n ih =>
    intro i s
    unfold selectThread.buildFdSet
    cases hget : s.conns[i]? with
    | none => simp
    | some c =>
      simp only
      split
      · exact ih _ _
      · split
        · exact (ih _ _).trans (List.eraseIdx_sublist _ _)
        · exact ih _ _

theorem DistinctChannels.of_sublist {a b : List Conn} (h : a.Sublist b)
    (hd : DistinctChannels b) : DistinctChannels a :=
  List.Nodup.sublist (h.map _) hd

/-- C2: if the channel numbers of the registry are pairwise distinct, they are
pairwise distinct after the registration block of `connectWithPassword` and
`connectWithKey` (push the new object, `getChannelNo`, `setChannelNo`) whenever
`getChannelNo` returned a non-zero id, and then the new connection is the last
entry, the earlier entries are untouched and none of them has the new id; they
are also pairwise distinct after the clean-up erase of a failed connect and
after the erasing loop of `selectThread`. -/
theorem channel_ids_stay_distinct (conns : List Conn) (init : Conn) (addr : Nat)
    (hd : DistinctChannels conns) :
    ((connectRegister { init with addr := newAddr conns } conns).val ≠ 0 →
      DistinctChannels (connectRegister { init with addr := newAddr conns } conns).conns ∧
      (connectRegister { init with addr := newAddr conns } conns).conns =
        conns ++ [{ init with
          addr := newAddr conns,
          channelNo := (connectRegister { init with addr := newAddr conns } conns).val }] ∧
      ∀ c ∈ conns,
        c.channelNo ≠ (connectRegister { init with addr := newAddr conns } conns).val) ∧
    DistinctChannels (connectCleanup addr conns).conns ∧
    DistinctChannels (selectThread.fdPass conns).conns := by
  refine ⟨?_, ?_, ?_⟩
  · intro hne
    have hreg : (connectRegister { init with addr := newAddr conns } conns).conns =
        conns ++ [{ init with
          addr := newAddr conns,
          channelNo := (connectRegister { init with addr := newAddr conns } conns).val }] := by
      unfold connectRegister
      exact setChannelNo_push_fresh conns { init with addr := newAddr conns } _
        (fun c hc => newAddr_fresh conns c hc)
    have hfree : ∀ c ∈ conns,
        c.channelNo ≠ (connectRegister { init with addr := newAddr conns } conns).val := by
      intro c hc
      have hval : (getChannelNo (conns ++ [({ init with addr := newAddr conns } : Conn)])).val
          ≠ 0 := hne
      exact getChannelNo_val_free _ hval c (List.mem_append_left _ hc)
    refine ⟨?_, hreg, hfree⟩
    rw [hreg]
    unfold DistinctChannels at hd ⊢
    rw [List.map_append, List.nodup_append]
    refine ⟨hd, by simp, ?_⟩
    intro a ha hb
    simp only [List.map_cons, List.map_nil, List.mem_singleton] at hb
    obtain ⟨c, hc, rfl⟩ := List.mem_map.mp ha
    exact hfree c hc hb
  · unfold connectCleanup
    simp only
    split
    · exact hd
    · exact DistinctChannels.of_sublist (List.eraseIdx_sublist _ _) hd
  · exact DistinctChannels.of_sublist (buildFdSet_sublist _ _ _) hd

theorem channel_ids_stay_distinct_witness :
    DistinctChannels [mkConn 1 1, { mkConn 2 3 with isCmdClosed := true }] ∧
    (connectRegister { mkConn 0 0 with addr := 3 }
      [mkConn 1 1, { mkConn 2 3 with isCmdClosed := true }]).val = 2 ∧
    DistinctChannels (connectRegister { mkConn 0 0 with addr := 3 }
      [mkConn 1 1, { mkConn 2 3 with isCmdClosed := true }]).conns ∧
    DistinctChannels (connectCleanup 2
      [mkConn 1 1, { mkConn 2 3 with isCmdClosed := true }]).conns ∧
    DistinctChannels (selectThread.fdPass
      [mkConn 1 1, { mkConn 2 3 with isCmdClosed := true }]).conns :=
  have hd : DistinctChannels [mkConn 1 1, { mkConn 2 3 with isCmdClosed := true }] := by
    unfold DistinctChannels; decide
  have h := channel_ids_stay_distinct
    [mkConn 1 1, { mkConn 2 3 with isCmdClosed := true }] (mkConn 0 0) 2 hd
  ⟨hd, by decide, (h.1 (by decide)).1, h.2.1, h.2.2⟩

/-! ## `sendCmd` -/

theorem findIdx_set_of_pred_eq {α : Type} (p : α → Bool) :
    ∀ (l : List α) (i : Nat) (a b : α), l[i]? = some a → p b = p a →
      (l.set i b).findIdx p = l.findIdx p := by
  intro l
  induction l with
  | nil => intro i a b h; simp at h
  | cons x t ih =>
    intro i a b h hp
    cases i with
    | zero =>
      simp only [List.getElem?_cons_zero, Option.some.injEq] at h
      subst h
      simp only [List.set_cons_zero, List.findIdx_cons, hp]
    | succ j =>
      simp only [List.getElem?_cons_succ] at h
      simp only [List.set_cons_succ, List.findIdx_cons, ih j a b h hp]

theorem findChannel_set_after (conns : List Conn) (channel : Int) (i : Nat) (c c' : Conn)
    (h : conns[i]? = some c) :
    findChannel (conns.set i (c.after c')) channel = findChannel conns channel := by
  unfold findChannel
  exact findIdx_set_of_pred_eq _ conns i c (c.after c') h (by simp [Conn.after])

theorem sendCmd_waitUntil_step (clock : Nat → Nat) (env : Nat → List Conn) (channel : Int)
    (cutoff : Int) (fuel k i : Nat) (conns : List Conn)
    (hw : WaitingAt conns channel i) (hc : cutoff ≠ 0) :
    sendCmd.waitUntil clock env channel cutoff (fuel + 1) k i conns =
      if (clock (k + 1) : Int) ≥ cutoff then ⟨Outcome.ret true, env (k + 1), []⟩
      else sendCmd.waitUntil clock env channel cutoff fuel (k + 1) i (env (k + 1)) := by
  obtain ⟨hfind, d, hd, hflag⟩ := hw
  have hlt : i < conns.length := by
    by_contra hge
    rw [List.getElem?_eq_none (by omega)] at hd
    cases hd
  have hne : i ≠ conns.length := by omega
  rw [sendCmd.waitUntil]
  simp only [hd, hflag, hfind, hne, if_false, hc, Bool.not_false, if_true, Bool.false_eq_true]

theorem sendCmd_waitUntil_expires (clock : Nat → Nat) (env : Nat → List Conn) (channel : Int)
    (cutoff : Int) (i K : Nat) (hc : cutoff ≠ 0)
    (henv : ∀ k, 1 ≤ k → k < K → WaitingAt (env k) channel i)
    (hearly : ∀ k, 1 ≤ k → k < K → (clock k : Int) < cutoff)
    (hlate : (clock K : Int) ≥ cutoff) :
    ∀ (n k fuel : Nat) (conns : List Conn), k + n = K → 1 ≤ n → n ≤ fuel →
      WaitingAt conns channel i →
      sendCmd.waitUntil clock env channel cutoff fuel k i conns =
        ⟨Outcome.ret true, env K, []⟩ := by
  intro n
  induction n with
  | zero => intro k fuel conns _ h1; omega
  | succ m ih =>
    intro k fuel conns hk _ hfuel hw
    obtain ⟨f, rfl⟩ : ∃ f, fuel = f + 1 := ⟨fuel - 1, by omega⟩
    rw [sendCmd_waitUntil_step clock env channel cutoff f k i conns hw hc]
    by_cases hm : m = 0
    · subst hm
      have hkK : k + 1 = K := by omega
      rw [hkK, if_pos hlate]
    · have hlt : ¬ ((clock (k + 1) : Int) ≥ cutoff) := by
        have := hearly (k + 1) (by omega) (by omega)
        omega
      rw [if_neg hlt]
      exact ih (k + 1) f (env (k + 1)) (by omega) (by omega) (by omega)
        (henv (k + 1) (by omega) (by omega))

/-- C3, as the code has it: `sendCmd` called with a positive timeout on a
registered channel, whose command was sent successfully and whose connection
stays at its index with the command-complete flag false until the clock
reaches `start + timeout` (at the `K`-th reading), returns `true` at that
reading: the expiry is not reported as a failure.  It makes no call besides the
connection's `sendCmd`, and the registry it leaves is the one it found after
the last sleep: it erases nothing. -/
theorem sendCmd_expiry_returns_true (api : ConnApi) (clock : Nat → Nat)
    (env : Nat → List Conn) (fuel K : Nat) (cmd : List Nat) (channel timeout : Int)
    (conns : List Conn) (c : Conn)
    (hto : 0 < timeout)
    (hreg : conns[findChannel conns channel]? = some c)
    (hsent : (api.sendCmd c cmd).1 = true)
    (hflag : (api.sendCmd c cmd).2.cmdComplete = false)
    (hK : 1 ≤ K) (hfuel : K ≤ fuel)
    (henv : ∀ k, 1 ≤ k → k < K → WaitingAt (env k) channel (findChannel conns channel))
    (hearly : ∀ k, 1 ≤ k → k < K → (clock k : Int) < (clock 0 : Int) + timeout)
    (hlate : (clock K : Int) ≥ (clock 0 : Int) + timeout) :
    (sendCmd api clock env fuel cmd channel timeout conns).val = Outcome.ret true ∧
    (sendCmd api clock env fuel cmd channel timeout conns).conns = env K ∧
    (sendCmd api clock env fuel cmd channel timeout conns).log =
      [Event.connSendCmd c.addr cmd] := by
  have hne : timeout ≠ 0 := by omega
  have hcut : (clock 0 : Int) + timeout ≠ 0 := by omega
  have hlt : findChannel conns channel < conns.length := by
    by_contra hge
    rw [List.getElem?_eq_none (by omega)] at hreg
    cases hreg
  have hw0 : WaitingAt (conns.set (findChannel conns channel) (c.after (api.sendCmd c cmd).2))
      channel (findChannel conns channel) := by
    refine ⟨findChannel_set_after conns channel _ c _ hreg, c.after (api.sendCmd c cmd).2, ?_, ?_⟩
    · exact List.getElem?_set_self hlt
    · simpa [Conn.after] using hflag
  have hrun := sendCmd_waitUntil_expires clock env channel ((clock 0 : Int) + timeout)
    (findChannel conns channel) K hcut henv hearly hlate K 0 fuel _ (by omega) hK hfuel hw0
  unfold sendCmd
  simp only [hreg, hsent, hne, ne_eq, not_false_eq_true, if_true, if_false, hto, hrun,
    Bool.not_true, Bool.false_eq_true, List.append_nil, and_self]

theorem sendCmd_expiry_returns_true_witness :
    Registered [mkConn 7 1, mkConn 8 2] 2 ∧
    (sendCmd okApi (fun k => 100 + k) (fun _ => [mkConn 7 1, mkConn 8 2]) 5 [108, 115] 2 3
      [mkConn 7 1, mkConn 8 2]).val = Outcome.ret true ∧
    (sendCmd okApi (fun k => 100 + k) (fun _ => [mkConn 7 1, mkConn 8 2]) 5 [108, 115] 2 3
      [mkConn 7 1, mkConn 8 2]).conns = [mkConn 7 1, mkConn 8 2] :=
  have h := sendCmd_expiry_returns_true okApi (fun k => 100 + k)
    (fun _ => [mkConn 7 1, mkConn 8 2]) 5 3 [108, 115] 2 3 [mkConn 7 1, mkConn 8 2] (mkConn 8 2)
    (by decide) (by decide) rfl rfl (by decide) (by decide)
    (fun _ _ _ => ⟨rfl, mkConn 8 2, rfl, rfl⟩)
    (fun k _ h2 => by simp only [Nat.cast_add, Nat.cast_ofNat]; omega)
    (by decide)
  ⟨⟨mkConn 8 2, by simp, rfl⟩, h.1, h.2.1⟩

/-- C3, counterexample: the channel 1 is registered, the command is sent
successfully (`okApi`), the command-complete flag is false at every poll, the
clock starts at 100 and the timeout is 2 seconds; `sendCmd` returns `true`,
not `false`, at the reading 102, and the connection is still registered. -/
theorem sendCmd_expiry_not_false :
    Registered [mkConn 7 1] 1 ∧
    (okApi.sendCmd (mkConn 7 1) [108, 115]).1 = true ∧
    (mkConn 7 1).cmdComplete = false ∧
    (sendCmd okApi (fun k => 100 + k) (fun _ => [mkConn 7 1]) 5 [108, 115] 1 2
      [mkConn 7 1]).val = Outcome.ret true ∧
    (sendCmd okApi (fun k => 100 + k) (fun _ => [mkConn 7 1]) 5 [108, 115] 1 2
      [mkConn 7 1]).val ≠ Outcome.ret false ∧
    (sendCmd okApi (fun k => 100 + k) (fun _ => [mkConn 7 1]) 5 [108, 115] 1 2
      [mkConn 7 1]).conns = [mkConn 7 1] :=
  ⟨⟨mkConn 7 1, by simp, rfl⟩, rfl, rfl, by decide, by decide, by decide⟩

/-! ## The backwards scan of `waitFor` -/

theorem infix_iff_matchAt (buffer str : List Nat) :
    str <:+: buffer ↔ ∃ p, MatchAt buffer p str := by
  constructor
  · rintro ⟨s, t, rfl⟩
    refine ⟨s.length, ?_⟩
    unfold MatchAt
    simp [List.append_assoc]
  · rintro ⟨p, hp⟩
    refine ⟨buffer.take p, (buffer.drop p).drop str.length, ?_⟩
    unfold MatchAt at hp
    have h1 : str ++ (buffer.drop p).drop str.length = buffer.drop p := by
      conv_lhs => lhs; rw [← hp]
      exact List.take_append_drop _ _
    rw [List.append_assoc, h1, List.take_append_drop]

theorem matchAt_fits {buffer str : List Nat} {p : Nat} (h : MatchAt buffer p str) :
    p + str.length ≤ buffer.length ∨ str = [] := by
  unfold MatchAt at h
  have := congrArg List.length h
  simp only [List.length_take, List.length_drop] at this
  by_cases hs : str = []
  · exact Or.inr hs
  · left
    have : 0 < str.length := List.length_pos.mpr hs
    omega

theorem matchAt_head {buffer str : List Nat} {p : Nat} (h : MatchAt buffer p str)
    (hs : str ≠ []) : buffer[p]? = some (str.headD 0) := by
  unfold MatchAt at h
  cases str with
  | nil => exact absurd rfl hs
  | cons a t =>
    have := congrArg (fun l => l[0]?) h
    simp only [List.length_cons, List.getElem?_cons_zero] at this
    rw [List.getElem?_take_of_lt (by omega), List.getElem?_drop] at this
    simpa using this

theorem waitFor_scan_spec (buffer str : List Nat) (hs : str ≠ []) :
    ∀ q fuel : Nat, q ≤ buffer.length → q + 1 ≤ fuel →
      waitFor.scan buffer buffer.length str fuel (buffer.length + 1 - q) =
        Outcome.ret (decide (∃ p, p < q ∧ MatchAt buffer p str)) := by
  intro q
  induction q with
  | zero =>
    intro fuel _ hf
    obtain ⟨f, rfl⟩ : ∃ f, fuel = f + 1 := ⟨fuel - 1, by omega⟩
    rw [waitFor.scan]
    simp
  | succ n ih =>
    intro fuel hq hf
    obtain ⟨f, rfl⟩ : ∃ f, fuel = f + 1 := ⟨fuel - 1, by omega⟩
    have hpos : buffer.length - (buffer.length + 1 - (n + 1)) = n := by omega
    have hnext : buffer.length + 1 - (n + 1) + 1 = buffer.length + 1 - n := by omega
    have hrest := ih f (by omega) (by omega)
    have hcont : ¬ MatchAt buffer n str →
        waitFor.scan buffer buffer.length str f (buffer.length + 1 - n) =
          Outcome.ret (decide (∃ p, p < n + 1 ∧ MatchAt buffer p str)) := by
      intro hno
      rw [hrest]
      congr 1
      rw [decide_eq_decide]
      constructor
      · rintro ⟨p, hp, hm⟩
        exact ⟨p, by omega, hm⟩
      · rintro ⟨p, hp, hm⟩
        refine ⟨p, ?_, hm⟩
        by_contra hge
        have : p = n := by omega
        subst this
        exact hno hm
    rw [waitFor.scan, if_pos (by omega), hpos, hnext, List.getElem?_eq_getElem (by omega)]
    simp only
    split
    · rename_i hcond
      have hfit : n + str.length ≤ buffer.length := by omega
      simp only [memcmpEq, if_pos hfit]
      by_cases hm : MatchAt buffer n str
      · have hd : decide (List.take str.length (List.drop n buffer) = str) = true :=
          decide_eq_true hm
        simp only [hd]
        congr 1
        exact (decide_eq_true ⟨n, by omega, hm⟩).symm
      · have hd : decide (List.take str.length (List.drop n buffer) = str) = false :=
          decide_eq_false hm
        simp only [hd]
        exact hcont hm
    · rename_i hcond
      apply hcont
      intro hm
      apply hcond
      constructor
      · have h1 := matchAt_head hm hs
        rw [List.getElem?_eq_getElem (by omega)] at h1
        exact Option.some.inj h1
      · rcases matchAt_fits hm with h | h
        · omega
        · exact absurd h hs

theorem waitFor_scan_finds_substring_aux (buffer str : List Nat) (hstr : str ≠ []) :
    waitFor.scan buffer buffer.length str (buffer.length + 1) 1 =
      Outcome.ret (decide (str <:+: buffer)) := by
  have h := waitFor_scan_spec buffer str hstr buffer.length (buffer.length + 1)
    (le_refl _) (le_refl _)
  have h1 : buffer.length + 1 - buffer.length = 1 := by omega
  rw [h1] at h
  rw [h]
  congr 1
  rw [decide_eq_decide, infix_iff_matchAt]
  constructor
  · rintro ⟨p, _, hm⟩
    exact ⟨p, hm⟩
  · rintro ⟨p, hm⟩
    refine ⟨p, ?_, hm⟩
    rcases matchAt_fits hm with h | h
    · have : 0 < str.length := List.length_pos.mpr hstr
      omega
    · exact absurd h hstr

/-! ## Misuse: unregistered channel, uninitialised SFTP subsystem -/

/-- C5: when `channel` is the channel number of no registered connection, each
of `send`, `sendCmd` and `initSftp` returns `false`, makes exactly one call,
the push of its "Bad channel" record onto the error log (hence calls no method
of any connection), and leaves the registry, and for `initSftp` the caller's
`_sftp`, as they were; and `send` returns `true` whenever some registered
connection has that channel number. -/
theorem bad_channel_is_reported (api : ConnApi) (clock : Nat → Nat) (env : Nat → List Conn)
    (fuel : Nat) (data cmd : List Nat) (channel timeout : Int) (_sftp : Ne7SftpSubsystem)
    (conns : List Conn) :
    (¬ Registered conns channel →
      send api data channel conns =
        ⟨false, conns, [Event.errPush (-1) "Bad channel: %i specified for sending." [channel]]⟩ ∧
      sendCmd api clock env fuel cmd channel timeout conns =
        ⟨Outcome.ret false, conns,
          [Event.errPush (-1) "Bad channel: %i specified for sending." [channel]]⟩ ∧
      initSftp api _sftp channel conns =
        ⟨(false, _sftp), conns,
          [Event.errPush (-1) "Bad channel: %i specified. Cannot initialize SFTP subsystem."
            [channel]]⟩) ∧
    (Registered conns channel → (send api data channel conns).val = true) := by
  constructor
  · intro hno
    have hnone := (getElem?_findChannel_eq_none_iff conns channel).mpr hno
    refine ⟨?_, ?_, ?_⟩
    · simp only [send, hnone]
    · simp only [sendCmd, hnone]
    · simp only [initSftp, hnone]
  · intro hreg
    obtain ⟨c, hc, _, _⟩ := getElem?_findChannel_of_registered hreg
    simp only [send, hc]

/-- C6: every member function of a default-constructed `Ne7SftpSubsystem`
makes exactly one call, the push of "This SFTP system has not been
initialized." onto the error log, returns its failure value (`false`; `0` for
`openFile` and `openDir`; the null pointer for `ls`) and does not touch the
`sftp` object or the state its methods work in; every member function of a
subsystem constructed from a handle `h` calls the method of the same name on
`h` with the same arguments and returns what it returns (`setTimeout`, whose
method gives no value to the wrapper, returns `true`). -/
theorem sftp_subsystem_guard {σ : Type} (api : SftpApi σ) (w : σ) (h : Nat)
    (filename newFile : String) (mode fileID offset len attrs localFile uid gid : Nat)
    (data : List Nat) (follow : Bool) :
    (
    Ne7SftpSubsystem.new.setTimeout api fileID w =
      some ⟨false, w,
        [Event.errPush (-1) "This SFTP system has not been initialized." []]⟩ ∧
    Ne7SftpSubsystem.new.openFile api filename mode w =
      some ⟨0, w,
        [Event.errPush (-1) "This SFTP system has not been initialized." []]⟩ ∧
    Ne7SftpSubsystem.new.openDir api filename w =
      some ⟨0, w,
        [Event.errPush (-1) "This SFTP system has not been initialized." []]⟩ ∧
    Ne7SftpSubsystem.new.readFile api fileID offset w =
      some ⟨false, w,
        [Event.errPush (-1) "This SFTP system has not been initialized." []]⟩ ∧
    Ne7SftpSubsystem.new.writeFile api fileID data len offset w =
      some ⟨false, w,
        [Event.errPush (-1) "This SFTP system has not been initialized." []]⟩ ∧
    Ne7SftpSubsystem.new.closeFile api fileID w =
      some ⟨false, w,
        [Event.errPush (-1) "This SFTP system has not been initialized." []]⟩ ∧
    Ne7SftpSubsystem.new.getFileAttrs api attrs filename follow w =
      some ⟨(false, attrs), w,
        [Event.errPush (-1) "This SFTP system has not been initialized." []]⟩ ∧
    Ne7SftpSubsystem.new.get api filename localFile w =
      some ⟨false, w,
        [Event.errPush (-1) "This SFTP system has not been initialized." []]⟩ ∧
    Ne7SftpSubsystem.new.put api localFile filename w =
      some ⟨false, w,
        [Event.errPush (-1) "This SFTP system has not been initialized." []]⟩ ∧
    Ne7SftpSubsystem.new.rm api filename w =
      some ⟨false, w,
        [Event.errPush (-1) "This SFTP system has not been initialized." []]⟩ ∧
    Ne7SftpSubsystem.new.mv api filename newFile w =
      some ⟨false, w,
        [Event.errPush (-1) "This SFTP system has not been initialized." []]⟩ ∧
    Ne7SftpSubsystem.new.mkdir api filename w =
      some ⟨false, w,
        [Event.errPush (-1) "This SFTP system has not been initialized." []]⟩ ∧
    Ne7SftpSubsystem.new.rmdir api filename w =
      some ⟨false, w,
        [Event.errPush (-1) "This SFTP system has not been initialized." []]⟩ ∧
    Ne7SftpSubsystem.new.ls api filename follow w =
      some ⟨none, w,
        [Event.errPush (-1) "This SFTP system has not been initialized." []]⟩ ∧
    Ne7SftpSubsystem.new.cd api filename w =
      some ⟨false, w,
        [Event.errPush (-1) "This SFTP system has not been initialized." []]⟩ ∧
    Ne7SftpSubsystem.new.chmod api filename newFile w =
      some ⟨false, w,
        [Event.errPush (-1) "This SFTP system has not been initialized." []]⟩ ∧
    Ne7SftpSubsystem.new.chown api filename uid gid w =
      some ⟨false, w,
        [Event.errPush (-1) "This SFTP system has not been initialized." []]⟩ ∧
    Ne7SftpSubsystem.new.isFile api filename w =
      some ⟨false, w,
        [Event.errPush (-1) "This SFTP system has not been initialized." []]⟩ ∧
    Ne7SftpSubsystem.new.isDir api filename w =
      some ⟨false, w,
        [Event.errPush (-1) "This SFTP system has not been initialized." []]⟩) ∧
    (
    (Ne7SftpSubsystem.ofHandle (some h)).setTimeout api fileID w =
      some ⟨true, api.setTimeout h fileID w, []⟩ ∧
    (Ne7SftpSubsystem.ofHandle (some h)).openFile api filename mode w =
      some ⟨(api.openFile h filename mode w).1, (api.openFile h filename mode w).2, []⟩ ∧
    (Ne7SftpSubsystem.ofHandle (some h)).openDir api filename w =
      some ⟨(api.openDir h filename w).1, (api.openDir h filename w).2, []⟩ ∧
    (Ne7SftpSubsystem.ofHandle (some h)).readFile api fileID offset w =
      some ⟨(api.readFile h fileID offset w).1, (api.readFile h fileID offset w).2, []⟩ ∧
    (Ne7SftpSubsystem.ofHandle (some h)).writeFile api fileID data len offset w =
      some ⟨(api.writeFile h fileID data len offset w).1,
        (api.writeFile h fileID data len offset w).2, []⟩ ∧
    (Ne7SftpSubsystem.ofHandle (some h)).closeFile api fileID w =
      some ⟨(api.closeFile h fileID w).1, (api.closeFile h fileID w).2, []⟩ ∧
    (Ne7SftpSubsystem.ofHandle (some h)).getFileAttrs api attrs filename follow w =
      some ⟨(api.getFileAttrs h attrs filename follow w).1,
        (api.getFileAttrs h attrs filename follow w).2, []⟩ ∧
    (Ne7SftpSubsystem.ofHandle (some h)).get api filename localFile w =
      some ⟨(api.get h filename localFile w).1, (api.get h filename localFile w).2, []⟩ ∧
    (Ne7SftpSubsystem.ofHandle (some h)).put api localFile filename w =
      some ⟨(api.put h localFile filename w).1, (api.put h localFile filename w).2, []⟩ ∧
    (Ne7SftpSubsystem.ofHandle (some h)).rm api filename w =
      some ⟨(api.rm h filename w).1, (api.rm h filename w).2, []⟩ ∧
    (Ne7SftpSubsystem.ofHandle (some h)).mv api filename newFile w =
      some ⟨(api.mv h filename newFile w).1, (api.mv h filename newFile w).2, []⟩ ∧
    (Ne7SftpSubsystem.ofHandle (some h)).mkdir api filename w =
      some ⟨(api.mkdir h filename w).1, (api.mkdir h filename w).2, []⟩ ∧
    (Ne7SftpSubsystem.ofHandle (some h)).rmdir api filename w =
      some ⟨(api.rmdir h filename w).1, (api.rmdir h filename w).2, []⟩ ∧
    (Ne7SftpSubsystem.ofHandle (some h)).ls api filename follow w =
      some ⟨(api.ls h filename follow w).1, (api.ls h filename follow w).2, []⟩ ∧
    (Ne7SftpSubsystem.ofHandle (some h)).cd api filename w =
      some ⟨(api.cd h filename w).1, (api.cd h filename w).2, []⟩ ∧
    (Ne7SftpSubsystem.ofHandle (some h)).chmod api filename newFile w =
      some ⟨(api.chmod h filename newFile w).1, (api.chmod h filename newFile w).2, []⟩ ∧
    (Ne7SftpSubsystem.ofHandle (some h)).chown api filename uid gid w =
      some ⟨(api.chown h filename uid gid w).1, (api.chown h filename uid gid w).2, []⟩ ∧
    (Ne7SftpSubsystem.ofHandle (some h)).isFile api filename w =
      some ⟨(api.isFile h filename w).1, (api.isFile h filename w).2, []⟩ ∧
    (Ne7SftpSubsystem.ofHandle (some h)).isDir api filename w =
      some ⟨(api.isDir h filename w).1, (api.isDir h filename w).2, []⟩) := by
  refine ⟨⟨?_, ?_, ?_, ?_, ?_, ?_, ?_, ?_, ?_, ?_, ?_, ?_, ?_, ?_, ?_, ?_, ?_, ?_, ?_⟩,
    ⟨?_, ?_, ?_, ?_, ?_, ?_, ?_, ?_, ?_, ?_, ?_, ?_, ?_, ?_, ?_, ?_, ?_, ?_, ?_⟩⟩ <;> rfl

/-! ## `read` and `getReceivedSize` -/

theorem read_loop_unregistered (channel : Int) :
    ∀ conns : List Conn, ¬ Registered conns channel → read.loop channel conns = none := by
  intro conns
  induction conns with
  | nil => intro _; rfl
  | cons a t ih =>
    intro h
    have ha : ¬ (a.channelNo : Int) = channel := fun e => h ⟨a, List.mem_cons_self _ _, e⟩
    have ht : ¬ Registered t channel := fun ⟨x, hx, e⟩ => h ⟨x, List.mem_cons_of_mem _ hx, e⟩
    simp only [read.loop, if_neg ha, ih ht]

theorem getReceivedSize_loop_unregistered (channel : Int) :
    ∀ conns : List Conn, ¬ Registered conns channel →
      getReceivedSize.loop channel conns = 0 := by
  intro conns
  induction conns with
  | nil => intro _; rfl
  | cons a t ih =>
    intro h
    have ha : ¬ (a.channelNo : Int) = channel := fun e => h ⟨a, List.mem_cons_self _ _, e⟩
    have ht : ¬ Registered t channel := fun ⟨x, hx, e⟩ => h ⟨x, List.mem_cons_of_mem _ hx, e⟩
    simp only [getReceivedSize.loop, if_neg ha, ih ht]

theorem not_registered_tail_of_distinct {a : Conn} {t : List Conn} {channel : Int}
    (hd : DistinctChannels (a :: t)) (ha : (a.channelNo : Int) = channel) :
    ¬ Registered t channel := by
  rintro ⟨x, hx, e⟩
  unfold DistinctChannels at hd
  rw [List.map_cons, List.nodup_cons] at hd
  apply hd.1
  have : x.channelNo = a.channelNo := by
    have := e.trans ha.symm
    exact_mod_cast this
  rw [← this]
  exact List.mem_map_of_mem _ hx

theorem read_loop_of_distinct (channel : Int) (c : Conn) :
    ∀ conns : List Conn, DistinctChannels conns → c ∈ conns → (c.channelNo : Int) = channel →
      read.loop channel conns = if c.received.length ≠ 0 then some c.received else none := by
  intro conns
  induction conns with
  | nil => intro _ hc; simp at hc
  | cons a t ih =>
    intro hd hc hch
    rcases List.mem_cons.mp hc with h | h
    · subst h
      have ht := read_loop_unregistered channel t (not_registered_tail_of_distinct hd hch)
      simp only [read.loop, if_pos hch, ht]
    · have ha : ¬ (a.channelNo : Int) = channel := by
        intro e
        exact not_registered_tail_of_distinct hd e ⟨c, h, hch⟩
      have hdt : DistinctChannels t := DistinctChannels.of_sublist (List.sublist_cons_self a t) hd
      simp only [read.loop, if_neg ha, ih hdt h hch]

theorem getReceivedSize_loop_of_distinct (channel : Int) (c : Conn) :
    ∀ conns : List Conn, DistinctChannels conns → c ∈ conns → (c.channelNo : Int) = channel →
      getReceivedSize.loop channel conns =
        if c.received.length = 0 then 0 else toInt32 c.received.length := by
  intro conns
  induction conns with
  | nil => intro _ hc; simp at hc
  | cons a t ih =>
    intro hd hc hch
    rcases List.mem_cons.mp hc with h | h
    · subst h
      simp only [getReceivedSize.loop, if_pos hch]
    · have ha : ¬ (a.channelNo : Int) = channel := by
        intro e
        exact not_registered_tail_of_distinct hd e ⟨c, h, hch⟩
      have hdt : DistinctChannels t := DistinctChannels.of_sublist (List.sublist_cons_self a t) hd
      simp only [getReceivedSize.loop, if_neg ha, ih hdt h hch]

theorem toInt32_of_lt {n : Nat} (h : n < 2 ^ 31) : toInt32 n = (n : Int) := by
  unfold toInt32
  have h1 : n % 2 ^ 32 = n := Nat.mod_eq_of_lt (by omega)
  rw [h1, if_pos h]

/-- C7, as the code has it: for every registry with pairwise distinct channel
numbers in which the receive buffer of the connection numbered `channel` is
shorter than `2^31` bytes, `read(channel)` is non-null exactly when
`getReceivedSize(channel) > 0`; when the connection numbered `channel` has a
non-empty buffer, `read` returns that buffer and `getReceivedSize` its length;
when `channel` is unregistered or the buffer of its connection is empty, `read`
returns null and `getReceivedSize` returns `0`; both calls leave the registry,
buffers included, as it was. -/
theorem read_agrees_with_getReceivedSize (conns : List Conn) (channel : Int)
    (hd : DistinctChannels conns)
    (hsmall : ∀ c ∈ conns, (c.channelNo : Int) = channel → c.received.length < 2 ^ 31) :
    ((read channel conns).val ≠ none ↔ (getReceivedSize channel conns).val > 0) ∧
    (∀ c ∈ conns, (c.channelNo : Int) = channel → c.received ≠ [] →
      (read channel conns).val = some c.received ∧
      (getReceivedSize channel conns).val = (c.received.length : Int)) ∧
    (¬ Registered conns channel →
      (read channel conns).val = none ∧ (getReceivedSize channel conns).val = 0) ∧
    (∀ c ∈ conns, (c.channelNo : Int) = channel → c.received = [] →
      (read channel conns).val = none ∧ (getReceivedSize channel conns).val = 0) ∧
    (read channel conns).conns = conns ∧ (getReceivedSize channel conns).conns = conns := by
  have hreg : ∀ c ∈ conns, (c.channelNo : Int) = channel →
      (read channel conns).val = (if c.received.length ≠ 0 then some c.received else none) ∧
      (getReceivedSize channel conns).val =
        (if c.received.length = 0 then 0 else (c.received.length : Int)) := by
    intro c hc hch
    have hne : channel ≠ -1 := by
      intro e
      rw [e] at hch
      omega
    constructor
    · simp only [read, if_neg hne]
      exact read_loop_of_distinct channel c conns hd hc hch
    · simp only [getReceivedSize]
      rw [getReceivedSize_loop_of_distinct channel c conns hd hc hch,
        toInt32_of_lt (hsmall c hc hch)]
  have hun : ¬ Registered conns channel →
      (read channel conns).val = none ∧ (getReceivedSize channel conns).val = 0 := by
    intro hno
    constructor
    · unfold read
      split
      · rfl
      · exact read_loop_unregistered channel conns hno
    · exact getReceivedSize_loop_unregistered channel conns hno
  refine ⟨?_, ?_, hun, ?_, ?_, rfl⟩
  · by_cases hr : Registered conns channel
    · obtain ⟨c, hc, hch⟩ := hr
      obtain ⟨h1, h2⟩ := hreg c hc hch
      rw [h1, h2]
      by_cases hz : c.received.length = 0
      · simp [hz]
      · simp only [ne_eq, hz, not_false_eq_true, if_true, if_false, reduceCtorEq, true_iff]
        omega
    · obtain ⟨h1, h2⟩ := hun hr
      rw [h1, h2]
      simp
  · intro c hc hch hnil
    obtain ⟨h1, h2⟩ := hreg c hc hch
    have hz : c.received.length ≠ 0 := fun e => hnil (List.length_eq_zero.mp e)
    rw [h1, h2]
    simp [hz]
  · intro c hc hch hnil
    obtain ⟨h1, h2⟩ := hreg c hc hch
    rw [h1, h2]
    simp [hnil]
  · unfold read
    split <;> rfl

theorem read_agrees_with_getReceivedSize_witness :
    (read 2 [mkConn 7 1, { mkConn 8 2 with received := [104, 105] }]).val = some [104, 105] ∧
    (getReceivedSize 2 [mkConn 7 1, { mkConn 8 2 with received := [104, 105] }]).val = 2 ∧
    (read 1 [mkConn 7 1, { mkConn 8 2 with received := [104, 105] }]).val = none :=
  have h2 := read_agrees_with_getReceivedSize
    [mkConn 7 1, { mkConn 8 2 with received := [104, 105] }] 2
    (by unfold DistinctChannels; decide) (by decide)
  have h1 := read_agrees_with_getReceivedSize
    [mkConn 7 1, { mkConn 8 2 with received := [104, 105] }] 1
    (by unfold DistinctChannels; decide) (by decide)
  ⟨(h2.2.1 { mkConn 8 2 with received := [104, 105] } (by simp) rfl (by simp)).1,
   (h2.2.1 { mkConn 8 2 with received := [104, 105] } (by simp) rfl (by simp)).2,
   (h1.2.2.2.1 (mkConn 7 1) (by simp) rfl rfl).1⟩

/-- C7, counterexample: the registry holds one connection, numbered 1, whose
receive buffer has `2^31` bytes.  `read(1)` returns that buffer, not null, but
`getReceivedSize(1)` is `-2147483648`: it is neither positive nor the length
of the buffer. -/
theorem getReceivedSize_wraps :
    DistinctChannels [{ mkConn 7 1 with received := List.replicate 2147483648 0 }] ∧
    (read 1 [{ mkConn 7 1 with received := List.replicate 2147483648 0 }]).val =
      some (List.replicate 2147483648 0) ∧
    (getReceivedSize 1 [{ mkConn 7 1 with received := List.replicate 2147483648 0 }]).val =
      -2147483648 ∧
    (List.replicate 2147483648 0 : List Nat).length = 2147483648 := by
  have hd : DistinctChannels [{ mkConn 7 1 with received := List.replicate 2147483648 0 }] := by
    unfold DistinctChannels
    exact List.nodup_singleton _
  have hlen : (List.replicate 2147483648 0 : List Nat).length = 2147483648 :=
    List.length_replicate _ _
  have hr := read_loop_of_distinct 1 { mkConn 7 1 with received := List.replicate 2147483648 0 }
    _ hd (List.mem_singleton.mpr rfl) rfl
  have hs := getReceivedSize_loop_of_distinct 1
    { mkConn 7 1 with received := List.replicate 2147483648 0 } _ hd
    (List.mem_singleton.mpr rfl) rfl
  simp only [hlen] at hr hs
  refine ⟨hd, ?_, ?_, hlen⟩
  · have hne : ¬ ((1 : Int) = -1) := by decide
    simp only [read, if_neg hne]
    exact hr.trans (if_pos (by decide))
  · simp only [getReceivedSize]
    exact hs.trans (by decide)

/-! ## `waitFor` -/

theorem read_conns (channel : Int) (conns : List Conn) : (read channel conns).conns = conns := by
  unfold read
  split <;> rfl

theorem waitFor_poll_conns (channel : Int) (str : List Nat) (conns : List Conn) :
    (waitFor.poll channel str conns).conns = conns := by
  unfold waitFor.poll
  simp only
  split
  · exact read_conns channel conns
  · simp only [getReceivedSize]
    exact read_conns channel conns

theorem read_loop_some (channel : Int) (buffer : List Nat) :
    ∀ conns : List Conn, read.loop channel conns = some buffer →
      (∃ c ∈ conns, (c.channelNo : Int) = channel ∧ c.received = buffer) ∧
      (getReceivedSize.loop channel conns = 0 ∨
        getReceivedSize.loop channel conns = toInt32 buffer.length) := by
  intro conns
  induction conns with
  | nil => intro h; simp [read.loop] at h
  | cons a t ih =>
    intro h
    by_cases ha : (a.channelNo : Int) = channel
    · by_cases hz : a.received.length = 0
      · simp only [read.loop, if_pos ha, hz, ne_eq, not_true_eq_false, if_false] at h
        obtain ⟨⟨c, hc, h1, h2⟩, _⟩ := ih h
        refine ⟨⟨c, List.mem_cons_of_mem _ hc, h1, h2⟩, Or.inl ?_⟩
        simp only [getReceivedSize.loop, if_pos ha, hz, if_true]
      · simp only [read.loop, if_pos ha, ne_eq, hz, not_false_eq_true, if_true,
          Option.some.injEq] at h
        subst h
        refine ⟨⟨a, List.mem_cons_self _ _, ha, rfl⟩, Or.inr ?_⟩
        simp only [getReceivedSize.loop, if_pos ha, hz, if_false]
    · simp only [read.loop, if_neg ha] at h
      obtain ⟨⟨c, hc, h1, h2⟩, h3⟩ := ih h
      refine ⟨⟨c, List.mem_cons_of_mem _ hc, h1, h2⟩, ?_⟩
      simpa only [getReceivedSize.loop, if_neg ha] using h3

theorem toSizeT_natCast {n : Nat} (h : n < 2 ^ 64) : toSizeT (n : Int) = n := by
  unfold toSizeT
  have : ((n : Int) % 2 ^ 64) = (n : Int) := Int.emod_eq_of_lt (by omega) (by omega)
  rw [this]
  exact Int.toNat_natCast n

theorem waitFor_scan_len_zero (buffer str : List Nat) (fuel : Nat) :
    waitFor.scan buffer 0 str (fuel + 1) 1 = Outcome.ret false := by
  rw [waitFor.scan]
  simp

theorem waitFor_poll_no_match (channel : Int) (str : List Nat) (conns : List Conn)
    (hch : channel ≠ -1) (hno : NeverContains conns channel str)
    (hfit : BufferFitsInt conns channel) :
    waitFor.poll channel str conns = ⟨Outcome.ret false, conns, []⟩ := by
  unfold waitFor.poll
  simp only [read, if_neg hch, getReceivedSize, List.append_nil]
  cases hr : read.loop channel conns with
  | none => rfl
  | some buffer =>
    obtain ⟨⟨c, hc, hcc, hcb⟩, hsz⟩ := read_loop_some channel buffer conns hr
    have hnot : ¬ str <:+: buffer := hcb ▸ hno c hc hcc
    have hlen : buffer.length < 2 ^ 31 := hcb ▸ hfit c hc hcc
    have hstr : str ≠ [] := by
      intro e
      exact hnot (e ▸ List.nil_infix)
    simp only
    rcases hsz with h0 | hL
    · rw [h0]
      have : toSizeT 0 = 0 := by decide
      rw [this, waitFor_scan_len_zero]
    · rw [hL, toInt32_of_lt hlen, toSizeT_natCast (by omega),
        waitFor_scan_finds_substring_aux buffer str hstr, decide_eq_false hnot]

theorem waitFor_loop_step (clock : Nat → Nat) (env : Nat → List Conn) (channel : Int)
    (str : List Nat) (cutoff fuel k : Nat) (conns : List Conn)
    (hp : waitFor.poll channel str conns = ⟨Outcome.ret false, conns, []⟩) (hc : cutoff ≠ 0) :
    waitFor.loop clock env channel str cutoff (fuel + 1) k conns =
      if clock (k + 1) ≥ cutoff then ⟨Outcome.ret false, env (k + 1), []⟩
      else waitFor.loop clock env channel str cutoff fuel (k + 1) (env (k + 1)) := by
  rw [waitFor.loop]
  simp only [hp, if_neg hc, List.nil_append]

theorem waitFor_loop_expires (clock : Nat → Nat) (env : Nat → List Conn) (channel : Int)
    (str : List Nat) (cutoff K : Nat) (hch : channel ≠ -1) (hc : cutoff ≠ 0)
    (henv : ∀ k, 1 ≤ k → k < K →
      NeverContains (env k) channel str ∧ BufferFitsInt (env k) channel)
    (hearly : ∀ k, 1 ≤ k → k < K → clock k < cutoff)
    (hlate : cutoff ≤ clock K) :
    ∀ (n k fuel : Nat) (conns : List Conn), k + n = K → 1 ≤ n →
      NeverContains conns channel str → BufferFitsInt conns channel →
      (n ≤ fuel →
        waitFor.loop clock env channel str cutoff fuel k conns =
          ⟨Outcome.ret false, env K, []⟩) ∧
      (fuel < n →
        (waitFor.loop clock env channel str cutoff fuel k conns).val = Outcome.waiting) := by
  intro n
  induction n with
  | zero => intro k fuel conns _ h1; omega
  | succ m ih =>
    intro k fuel conns hk _ hno hfit
    cases fuel with
    | zero =>
      refine ⟨fun h => by omega, fun _ => ?_⟩
      simp only [waitFor.loop]
    | succ f =>
      rw [waitFor_loop_step clock env channel str cutoff f k conns
        (waitFor_poll_no_match channel str conns hch hno hfit) hc]
      by_cases hm : m = 0
      · subst hm
        have hkK : k + 1 = K := by omega
        rw [hkK, if_pos hlate]
        exact ⟨fun _ => rfl, fun h => by omega⟩
      · have hlt : ¬ (clock (k + 1) ≥ cutoff) := by
          have := hearly (k + 1) (by omega) (by omega)
          omega
        rw [if_neg hlt]
        obtain ⟨h1, h2⟩ := henv (k + 1) (by omega) (by omega)
        obtain ⟨a, b⟩ := ih (k + 1) f (env (k + 1)) (by omega) (by omega) h1 h2
        exact ⟨fun h => a (by omega), fun h => b (by omega)⟩

/-- C8, as the code has it: `waitFor` called with `timeSec > 0` on a channel
(a channel id is never `-1`) whose receive buffer, at every poll, is shorter
than `2^31` bytes and does not contain the pattern, returns `false` after the
first sleep at whose end the clock is at or past `start + timeSec` (the `K`-th
reading) and is still in its loop before that; it makes no call on the error
log or on a connection, no poll changes the registry, and the registry it
leaves is the one in place when it returns. -/
theorem waitFor_expiry_returns_false (clock : Nat → Nat) (env : Nat → List Conn)
    (fuel K : Nat) (channel : Int) (str : List Nat) (timeSec : Nat) (conns : List Conn)
    (hts : 0 < timeSec) (hch : channel ≠ -1) (hK : 1 ≤ K)
    (hno : NeverContains conns channel str) (hfit : BufferFitsInt conns channel)
    (henv : ∀ k, 1 ≤ k → k < K →
      NeverContains (env k) channel str ∧ BufferFitsInt (env k) channel)
    (hearly : ∀ k, 1 ≤ k → k < K → clock k < clock 0 + timeSec)
    (hlate : clock 0 + timeSec ≤ clock K) :
    (K ≤ fuel →
      waitFor clock env fuel channel str timeSec conns = ⟨Outcome.ret false, env K, []⟩) ∧
    (fuel < K →
      (waitFor clock env fuel channel str timeSec conns).val = Outcome.waiting) ∧
    (∀ reg : List Conn, (waitFor.poll channel str reg).conns = reg) := by
  have hne : timeSec ≠ 0 := by omega
  have hcut : clock 0 + timeSec ≠ 0 := by omega
  obtain ⟨a, b⟩ := waitFor_loop_expires clock env channel str (clock 0 + timeSec) K hch hcut
    henv hearly hlate K 0 fuel conns (by omega) hK hno hfit
  refine ⟨?_, ?_, fun reg => waitFor_poll_conns channel str reg⟩
  · intro h
    simp only [waitFor, if_neg hch, hne, ne_eq, not_false_eq_true, if_true]
    exact a h
  · intro h
    simp only [waitFor, if_neg hch, hne, ne_eq, not_false_eq_true, if_true]
    exact b h

theorem waitFor_expiry_returns_false_witness :
    waitFor (fun k => 100 + k) (fun _ => [{ mkConn 7 1 with received := [104, 105] }]) 5 1
      [111, 107] 2 [{ mkConn 7 1 with received := [104, 105] }] =
      ⟨Outcome.ret false, [{ mkConn 7 1 with received := [104, 105] }], []⟩ ∧
    (waitFor (fun k => 100 + k) (fun _ => [{ mkConn 7 1 with received := [104, 105] }]) 1 1
      [111, 107] 2 [{ mkConn 7 1 with received := [104, 105] }]).val = Outcome.waiting :=
  have hq : NeverContains [{ mkConn 7 1 with received := [104, 105] }] 1 [111, 107] ∧
      BufferFitsInt [{ mkConn 7 1 with received := [104, 105] }] 1 :=
    ⟨by unfold NeverContains; decide, by unfold BufferFitsInt; decide⟩
  have h := fun fuel => waitFor_expiry_returns_false (fun k => 100 + k)
    (fun _ => [{ mkConn 7 1 with received := [104, 105] }]) fuel 2 1 [111, 107] 2
    [{ mkConn 7 1 with received := [104, 105] }] (by decide) (by decide) (by decide)
    hq.1 hq.2 (fun _ _ _ => hq) (fun k _ h2 => by show 100 + k < 100 + 0 + 2; omega) (by decide)
  ⟨(h 5).1 (by decide), (h 1).2.1 (by decide)⟩

theorem waitFor_scan_ub_of_short_buffer (buffer str : List Nat) (len fuel : Nat)
    (h : buffer.length < len) : waitFor.scan buffer len str (fuel + 1) 1 = Outcome.ub := by
  rw [waitFor.scan, if_pos (by omega), List.getElem?_eq_none (by omega)]

theorem waitFor_poll_ub (channel : Int) (str : List Nat) (conns : List Conn)
    (buffer : List Nat) (hch : channel ≠ -1) (hr : read.loop channel conns = some buffer)
    (hlen : buffer.length < toSizeT (getReceivedSize.loop channel conns)) :
    waitFor.poll channel str conns = ⟨Outcome.ub, conns, []⟩ := by
  unfold waitFor.poll
  simp only [read, if_neg hch, hr, getReceivedSize, List.append_nil,
    waitFor_scan_ub_of_short_buffer buffer str _ _ hlen]

theorem waitFor_ub_at_first_poll (clock : Nat → Nat) (env : Nat → List Conn) (fuel : Nat)
    (channel : Int) (str : List Nat) (timeSec : Nat) (conns : List Conn) (hch : channel ≠ -1)
    (hp : waitFor.poll channel str conns = ⟨Outcome.ub, conns, []⟩) :
    (waitFor clock env (fuel + 1) channel str timeSec conns).val = Outcome.ub := by
  simp only [waitFor, if_neg hch]
  rw [waitFor.loop]
  simp only [hp]

/-- C8, counterexample: the connection numbered 1 holds a receive buffer of
`2^31` zero bytes, which does not contain the pattern "a"; the clock starts at
0 and `timeSec` is 1.  `getReceivedSize` gives `-2147483648`, `len` becomes
`2^64 - 2^31`, and the first poll reads `buffer[len - 1]`, far outside the
buffer: `waitFor` does not return `false` at the expiry. -/
theorem waitFor_large_buffer_reads_outside :
    NeverContains [{ mkConn 7 1 with received := List.replicate 2147483648 0 }] 1 [97] ∧
    (waitFor (fun k => k) (fun _ => [{ mkConn 7 1 with received := List.replicate 2147483648 0 }])
      3 1 [97] 1 [{ mkConn 7 1 with received := List.replicate 2147483648 0 }]).val =
      Outcome.ub := by
  have hd : DistinctChannels [{ mkConn 7 1 with received := List.replicate 2147483648 0 }] := by
    unfold DistinctChannels
    exact List.nodup_singleton _
  have hlen : (List.replicate 2147483648 0 : List Nat).length = 2147483648 :=
    List.length_replicate _ _
  have hr := read_loop_of_distinct 1 { mkConn 7 1 with received := List.replicate 2147483648 0 }
    _ hd (List.mem_singleton.mpr rfl) rfl
  have hs := getReceivedSize_loop_of_distinct 1
    { mkConn 7 1 with received := List.replicate 2147483648 0 } _ hd
    (List.mem_singleton.mpr rfl) rfl
  simp only [hlen] at hr hs
  have hr1 : read.loop 1 [{ mkConn 7 1 with received := List.replicate 2147483648 0 }] =
      some (List.replicate 2147483648 0) := hr.trans (if_pos (by decide))
  have hs1 : getReceivedSize.loop 1
      [{ mkConn 7 1 with received := List.replicate 2147483648 0 }] = -2147483648 :=
    hs.trans (by decide)
  have hne : ¬ ((1 : Int) = -1) := by decide
  have hbig : (List.replicate 2147483648 0 : List Nat).length <
      toSizeT (getReceivedSize.loop 1
        [{ mkConn 7 1 with received := List.replicate 2147483648 0 }]) := by
    rw [hs1, hlen]
    decide
  constructor
  · intro c hc _ hin
    rw [List.mem_singleton.mp hc] at hin
    have hmem : (97 : Nat) ∈ List.replicate 2147483648 0 :=
      hin.subset (List.mem_singleton.mpr rfl)
    have := List.eq_of_mem_replicate hmem
    omega
  · exact waitFor_ub_at_first_poll _ _ 2 1 [97] 1 _ hne
      (waitFor_poll_ub 1 [97] _ _ hne hr1 hbig)

/-! ## One poll of `waitFor` -/

theorem waitFor_loop_one_poll_false (clock : Nat → Nat) (env : Nat → List Conn)
    (channel : Int) (str : List Nat) (cutoff k : Nat) (conns : List Conn)
    (hp : waitFor.poll channel str conns = ⟨Outcome.ret false, conns, []⟩) :
    (waitFor.loop clock env channel str cutoff 1 k conns).val ≠ Outcome.ret true := by
  rw [waitFor.loop]
  simp only [hp, waitFor.loop]
  split_ifs <;> simp

/-- C4, as the code has it: in a registry with pairwise distinct channel
numbers, let the connection numbered `channel` hold a receive buffer of at
least one byte and of fewer than `2^31` bytes, and let the pattern be
non-empty.  Then one poll of `waitFor` (`read`, `getReceivedSize`, the
backwards scan) ends with `return true` exactly when the pattern occurs as a
contiguous run of bytes of that buffer, and otherwise runs to the end of the
scan; it never reads a byte outside the buffer (its outcome is not
`Outcome.ub`), changes no registry entry and makes no call.  Hence `waitFor`
returns `true` from its first poll when the pattern occurs, and a `waitFor`
allowed a single poll returns `true` if and only if the pattern occurs.  The
last part is the scan by itself: handed the true length of any buffer, it
finds the pattern exactly when it occurs and reads inside the buffer only. -/
theorem waitFor_poll_finds_substring (conns : List Conn) (channel : Int) (c : Conn)
    (str : List Nat) (hd : DistinctChannels conns) (hc : c ∈ conns)
    (hch : (c.channelNo : Int) = channel) (hlen : 1 ≤ c.received.length)
    (hfit : c.received.length < 2 ^ 31) (hstr : str ≠ []) :
    waitFor.poll channel str conns =
      ⟨Outcome.ret (decide (str <:+: c.received)), conns, []⟩ ∧
    (str <:+: c.received →
      ∀ (clock : Nat → Nat) (env : Nat → List Conn) (fuel timeSec : Nat),
        waitFor clock env (fuel + 1) channel str timeSec conns =
          ⟨Outcome.ret true, conns, []⟩) ∧
    (∀ (clock : Nat → Nat) (env : Nat → List Conn) (timeSec : Nat),
      (waitFor clock env 1 channel str timeSec conns).val = Outcome.ret true ↔
        str <:+: c.received) ∧
    (∀ buffer : List Nat,
      waitFor.scan buffer buffer.length str (buffer.length + 1) 1 =
        Outcome.ret (decide (str <:+: buffer))) := by
  have hne : channel ≠ -1 := by
    intro e
    rw [e] at hch
    omega
  have hz : c.received.length ≠ 0 := by omega
  have hr := read_loop_of_distinct channel c conns hd hc hch
  have hs := getReceivedSize_loop_of_distinct channel c conns hd hc hch
  rw [if_pos hz] at hr
  rw [if_neg hz, toInt32_of_lt hfit] at hs
  have hpoll : waitFor.poll channel str conns =
      ⟨Outcome.ret (decide (str <:+: c.received)), conns, []⟩ := by
    unfold waitFor.poll
    simp only [read, if_neg hne, hr, getReceivedSize, hs, List.append_nil]
    rw [toSizeT_natCast (by omega), waitFor_scan_finds_substring_aux _ _ hstr]
  refine ⟨hpoll, ?_, ?_, fun buffer => waitFor_scan_finds_substring_aux buffer str hstr⟩
  · intro hin clock env fuel timeSec
    simp only [waitFor, if_neg hne]
    rw [waitFor.loop]
    simp only [hpoll, decide_eq_true hin]
  · intro clock env timeSec
    simp only [waitFor, if_neg hne]
    by_cases hin : str <:+: c.received
    · refine iff_of_true ?_ hin
      rw [waitFor.loop]
      simp only [hpoll, decide_eq_true hin]
    · refine iff_of_false ?_ hin
      have hpf : waitFor.poll channel str conns = ⟨Outcome.ret false, conns, []⟩ := by
        rw [hpoll, decide_eq_false hin]
      exact waitFor_loop_one_poll_false clock env channel str _ 0 conns hpf

theorem waitFor_poll_finds_substring_witness :
    waitFor.poll 2 [108, 108, 111]
        [mkConn 7 1, { mkConn 8 2 with received := [104, 101, 108, 108, 111, 13, 10] }] =
      ⟨Outcome.ret true,
        [mkConn 7 1, { mkConn 8 2 with received := [104, 101, 108, 108, 111, 13, 10] }], []⟩ ∧
    waitFor.poll 2 [108, 111, 108]
        [mkConn 7 1, { mkConn 8 2 with received := [104, 101, 108, 108, 111, 13, 10] }] =
      ⟨Outcome.ret false,
        [mkConn 7 1, { mkConn 8 2 with received := [104, 101, 108, 108, 111, 13, 10] }], []⟩ ∧
    waitFor (fun k => 100 + k)
        (fun _ => [mkConn 7 1,
          { mkConn 8 2 with received := [104, 101, 108, 108, 111, 13, 10] }]) 3 2
        [108, 108, 111] 5
        [mkConn 7 1, { mkConn 8 2 with received := [104, 101, 108, 108, 111, 13, 10] }] =
      ⟨Outcome.ret true,
        [mkConn 7 1, { mkConn 8 2 with received := [104, 101, 108, 108, 111, 13, 10] }], []⟩ :=
  have h := fun str hstr => waitFor_poll_finds_substring
    [mkConn 7 1, { mkConn 8 2 with received := [104, 101, 108, 108, 111, 13, 10] }] 2
    { mkConn 8 2 with received := [104, 101, 108, 108, 111, 13, 10] } str
    (by unfold DistinctChannels; decide) (by simp) rfl (by decide) (by decide) hstr
  ⟨(h [108, 108, 111] (by decide)).1, (h [108, 111, 108] (by decide)).1,
   (h [108, 108, 111] (by decide)).2.1 (by decide) (fun k => 100 + k) _ 2 5⟩

/-- C4, counterexample: the connection numbered 1 holds a receive buffer of
`2^31` bytes, each of them the letter "a", so the pattern "a" occurs in it.
`getReceivedSize` gives `-2147483648`, `len` becomes `2^64 - 2^31`, and the
poll reads `buffer[len - 1]`, outside the buffer: it does not end with `return
true`, and neither does `waitFor`. -/
theorem waitFor_poll_large_buffer_misses_match :
    DistinctChannels [{ mkConn 7 1 with received := List.replicate 2147483648 97 }] ∧
    (List.replicate 2147483648 97 : List Nat).length = 2147483648 ∧
    [97] <:+: (List.replicate 2147483648 97 : List Nat) ∧
    waitFor.poll 1 [97] [{ mkConn 7 1 with received := List.replicate 2147483648 97 }] =
      ⟨Outcome.ub, [{ mkConn 7 1 with received := List.replicate 2147483648 97 }], []⟩ ∧
    (waitFor (fun k => k)
      (fun _ => [{ mkConn 7 1 with received := List.replicate 2147483648 97 }])
      3 1 [97] 1 [{ mkConn 7 1 with received := List.replicate 2147483648 97 }]).val =
      Outcome.ub := by
  have hd : DistinctChannels [{ mkConn 7 1 with received := List.replicate 2147483648 97 }] := by
    unfold DistinctChannels
    exact List.nodup_singleton _
  have hlen : (List.replicate 2147483648 97 : List Nat).length = 2147483648 :=
    List.length_replicate _ _
  have hr := read_loop_of_distinct 1 { mkConn 7 1 with received := List.replicate 2147483648 97 }
    _ hd (List.mem_singleton.mpr rfl) rfl
  have hs := getReceivedSize_loop_of_distinct 1
    { mkConn 7 1 with received := List.replicate 2147483648 97 } _ hd
    (List.mem_singleton.mpr rfl) rfl
  simp only [hlen] at hr hs
  have hr1 : read.loop 1 [{ mkConn 7 1 with received := List.replicate 2147483648 97 }] =
      some (List.replicate 2147483648 97) := hr.trans (if_pos (by decide))
  have hs1 : getReceivedSize.loop 1
      [{ mkConn 7 1 with received := List.replicate 2147483648 97 }] = -2147483648 :=
    hs.trans (by decide)
  have hne : ¬ ((1 : Int) = -1) := by decide
  have hbig : (List.replicate 2147483648 97 : List Nat).length <
      toSizeT (getReceivedSize.loop 1
        [{ mkConn 7 1 with received := List.replicate 2147483648 97 }]) := by
    rw [hs1, hlen]
    decide
  have hp := waitFor_poll_ub 1 [97] _ _ hne hr1 hbig
  have hin : [97] <:+: (List.replicate 2147483648 97 : List Nat) :=
    ⟨[], List.replicate 2147483647 97, (List.replicate_succ 97 2147483647).symm⟩
  exact ⟨hd, hlen, hin, hp, waitFor_ub_at_first_poll _ _ 2 1 [97] 1 _ hne hp⟩

/-! ## `sendCmd` with `timeout == 0` -/

theorem sendCmd_waitForever_waits (env : Nat → List Conn) (channel : Int) (i : Nat)
    (henv : ∀ k, 1 ≤ k → WaitingAt (env k) channel i) :
    ∀ (fuel k : Nat) (conns : List Conn), WaitingAt conns channel i →
      (sendCmd.waitForever env channel fuel k i conns).val = Outcome.waiting := by
  intro fuel
  induction fuel with
  | zero => intro k conns _; rfl
  | succ f ih =>
    intro k conns hw
    obtain ⟨hfind, d, hd, hflag⟩ := hw
    have hlt : i < conns.length := by
      by_contra hge
      rw [List.getElem?_eq_none (by omega)] at hd
      cases hd
    have hne : i ≠ conns.length := by omega
    rw [sendCmd.waitForever]
    simp only [hd, hflag, hfind, hne, if_false, Bool.not_false, if_true, Bool.false_eq_true]
    exact ih (k + 1) (env (k + 1)) (henv (k + 1) (by omega))

/-- C9, the code at the failing input.  The registry is `[A, B, C]`: `A` is
command-closed, `B`, numbered 2, is the connection `sendCmd` is called on, and
`C` has its command-complete flag set.  During the first sleep the erasing
loop of `selectThread` removes `A`, so the registry is `[B, C]`: `B` is still
registered and its flag is still false.  The loop condition then reads
`_connections[1]`, which is now `C`, and `sendCmd`, called with `timeout = 0`,
returns `true`. -/
theorem sendCmd_forever_returns_on_stale_index :
    (selectThread.fdPass
      [{ mkConn 7 1 with isCmdClosed := true }, mkConn 8 2,
        { mkConn 9 3 with cmdComplete := true }]).conns =
      [mkConn 8 2, { mkConn 9 3 with cmdComplete := true }] ∧
    WaitingAt [mkConn 8 2, { mkConn 9 3 with cmdComplete := true }] 2 0 ∧
    (sendCmd okApi (fun _ => 0)
      (fun _ => [mkConn 8 2, { mkConn 9 3 with cmdComplete := true }]) 5 [108, 115] 2 0
      [{ mkConn 7 1 with isCmdClosed := true }, mkConn 8 2,
        { mkConn 9 3 with cmdComplete := true }]).val = Outcome.ret true :=
  ⟨by decide, ⟨by decide, mkConn 8 2, rfl, rfl⟩, by decide⟩

/-! ## `close` -/

theorem close_loop_unregistered (api : ConnApi) (channel : Int) :
    ∀ (conns : List Conn) (status : Bool), ¬ Registered conns channel →
      close.loop api channel conns status = ⟨status, conns, []⟩ := by
  intro conns
  induction conns with
  | nil => intro status _; rfl
  | cons a t ih =>
    intro status h
    have ha : ¬ (a.channelNo : Int) = channel := fun e => h ⟨a, List.mem_cons_self _ _, e⟩
    have ht : ¬ Registered t channel := fun ⟨x, hx, e⟩ => h ⟨x, List.mem_cons_of_mem _ hx, e⟩
    simp only [close.loop, if_neg ha, ih status ht]

theorem close_loop_log (api : ConnApi) (channel : Int) :
    ∀ (conns : List Conn) (status : Bool),
      (close.loop api channel conns status).log =
        (conns.filter (fun c => decide ((c.channelNo : Int) = channel))).map
          (fun c => Event.connSendClose c.addr) := by
  intro conns
  induction conns with
  | nil => intro status; rfl
  | cons a t ih =>
    intro status
    by_cases ha : (a.channelNo : Int) = channel
    · simp only [close.loop, if_pos ha, ih, List.filter_cons, decide_eq_true ha, if_true,
        List.map_cons]
    · simp only [close.loop, if_neg ha, ih, List.filter_cons, decide_eq_false ha,
        Bool.false_eq_true, if_false]

theorem close_loop_val (api : ConnApi) (channel : Int) :
    ∀ (conns : List Conn) (status : Bool), Registered conns channel →
      ∃ c ∈ conns, (c.channelNo : Int) = channel ∧
        (close.loop api channel conns status).val = (api.sendClose c).1 := by
  intro conns
  induction conns with
  | nil => rintro status ⟨x, hx, _⟩; simp at hx
  | cons a t ih =>
    intro status hreg
    by_cases ht : Registered t channel
    · by_cases ha : (a.channelNo : Int) = channel
      · obtain ⟨c, hc, h1, h2⟩ := ih (api.sendClose a).1 ht
        exact ⟨c, List.mem_cons_of_mem _ hc, h1, by simp only [close.loop, if_pos ha, h2]⟩
      · obtain ⟨c, hc, h1, h2⟩ := ih status ht
        exact ⟨c, List.mem_cons_of_mem _ hc, h1, by simp only [close.loop, if_neg ha, h2]⟩
    · have ha : (a.channelNo : Int) = channel := by
        obtain ⟨x, hx, e⟩ := hreg
        rcases List.mem_cons.mp hx with h | h
        · exact h ▸ e
        · exact absurd ⟨x, h, e⟩ ht
      refine ⟨a, List.mem_cons_self _ _, ha, ?_⟩
      simp only [close.loop, if_pos ha, close_loop_unregistered api channel t _ ht]

theorem close_loop_of_distinct (api : ConnApi) (channel : Int) (c : Conn) :
    ∀ (conns : List Conn) (status : Bool), DistinctChannels conns → c ∈ conns →
      (c.channelNo : Int) = channel →
      (close.loop api channel conns status).val = (api.sendClose c).1 ∧
      (close.loop api channel conns status).log = [Event.connSendClose c.addr] := by
  intro conns
  induction conns with
  | nil => intro _ _ hc; simp at hc
  | cons a t ih =>
    intro status hd hc hch
    rcases List.mem_cons.mp hc with h | h
    · subst h
      have ht := close_loop_unregistered api channel t (api.sendClose c).1
        (not_registered_tail_of_distinct hd hch)
      simp only [close.loop, if_pos hch, ht, and_self]
    · have ha : ¬ (a.channelNo : Int) = channel := by
        intro e
        exact not_registered_tail_of_distinct hd e ⟨c, h, hch⟩
      have hdt : DistinctChannels t := DistinctChannels.of_sublist (List.sublist_cons_self a t) hd
      simp only [close.loop, if_neg ha]
      exact ih status hdt h hch

/-- C10, as the code has it: for a channel id that is the channel number of no
registered connection, `close` returns `false` and leaves the registry as it
is; it pushes a "Bad channel" record onto the error log when the id is `-1`,
and for any other such id it pushes nothing: its only call is
`errs->deleteChannel(channel)`.  When some registered connection has the id,
`close` calls `sendClose` on every connection that has it, in order, then
`deleteChannel`, and returns the result of one of those calls; with pairwise
distinct channel numbers that is the one connection with the id. -/
theorem close_reports_only_minus_one (api : ConnApi) (channel : Int) (conns : List Conn) :
    (channel = -1 →
      close api channel conns =
        ⟨false, conns, [Event.errPush (-1) "Bad channel: %i specified for closing." [channel]]⟩) ∧
    (channel ≠ -1 → ¬ Registered conns channel →
      close api channel conns = ⟨false, conns, [Event.errDeleteChannel channel]⟩) ∧
    (Registered conns channel →
      (close api channel conns).log =
        (conns.filter (fun c => decide ((c.channelNo : Int) = channel))).map
          (fun c => Event.connSendClose c.addr) ++ [Event.errDeleteChannel channel] ∧
      ∃ c ∈ conns, (c.channelNo : Int) = channel ∧
        (close api channel conns).val = (api.sendClose c).1) ∧
    (DistinctChannels conns → ∀ c ∈ conns, (c.channelNo : Int) = channel →
      (close api channel conns).val = (api.sendClose c).1 ∧
      (close api channel conns).log =
        [Event.connSendClose c.addr, Event.errDeleteChannel channel]) := by
  have hreg_ne : Registered conns channel → channel ≠ -1 := by
    rintro ⟨x, _, e⟩ h
    rw [h] at e
    omega
  refine ⟨?_, ?_, ?_, ?_⟩
  · intro h
    simp only [close, if_pos h]
  · intro h hno
    simp only [close, if_neg h, close_loop_unregistered api channel conns false hno,
      List.nil_append]
  · intro hreg
    simp only [close, if_neg (hreg_ne hreg), close_loop_log]
    exact ⟨trivial, close_loop_val api channel conns false hreg⟩
  · intro hd c hc hch
    obtain ⟨h1, h2⟩ := close_loop_of_distinct api channel c conns false hd hc hch
    simp only [close, if_neg (hreg_ne ⟨c, hc, hch⟩), h1, h2, List.singleton_append, and_self]

/-- C10, counterexample: no connection of the registry is numbered 5, and
`close(5)` returns `false` without pushing anything onto the error log: the
one call it makes is `errs->deleteChannel(5)`. -/
theorem close_unregistered_pushes_nothing :
    (∀ x ∈ [mkConn 7 1], (x.channelNo : Int) ≠ 5) ∧
    (close okApi 5 [mkConn 7 1]).val = false ∧
    (close okApi 5 [mkConn 7 1]).log = [Event.errDeleteChannel 5] ∧
    (∀ fmt args, Event.errPush (-1) fmt args ∉ (close okApi 5 [mkConn 7 1]).log) :=
  ⟨by decide, rfl, rfl, by intro fmt args h; simp [close, close.loop, mkConn] at h⟩

/-! ## Fuel of the bounded loops -/

theorem buildFdSet_fuel_enough :
    ∀ (fuel extra i : Nat) (s : FdPass), s.conns.length ≤ fuel + i →
      selectThread.buildFdSet (fuel + extra) i s = selectThread.buildFdSet fuel i s := by
  intro fuel
  induction fuel with
  | zero =>
    intro extra i s h
    have hnone : s.conns[i]? = none := List.getElem?_eq_none (by omega)
    cases extra with
    | zero => rfl
    | succ e =>
      rw [Nat.zero_add, selectThread.buildFdSet, selectThread.buildFdSet]
      simp only [hnone]
  | succ n ih =>
    intro extra i s h
    have hadd : n + 1 + extra = (n + extra) + 1 := by omega
    rw [hadd, selectThread.buildFdSet, selectThread.buildFdSet]
    cases hget : s.conns[i]? with
    | none => rfl
    | some c =>
      simp only
      split
      · exact ih extra (i + 1) _ (by simp only; omega)
      · split
        · refine ih extra (i + 1) _ ?_
          have := List.length_eraseIdx_le s.conns i
          simp only
          omega
        · exact ih extra (i + 1) _ (by omega)

theorem waitFor_scan_ends (buffer str : List Nat) (len : Nat) :
    ∀ fuel carretLen : Nat, 1 ≤ fuel → len + 2 ≤ fuel + carretLen →
      waitFor.scan buffer len str fuel carretLen ≠ Outcome.waiting := by
  intro fuel
  induction fuel with
  | zero =>
    intro carretLen h1 _
    omega
  | succ n ih =>
    intro carretLen _ h
    rw [waitFor.scan]
    split
    · split
      · simp
      · split
        · split
          · simp
          · simp
          · exact ih _ (by omega) (by omega)
        · exact ih _ (by omega) (by omega)
    · simp

/-! ## Range of `getChannelNo` -/

theorem exists_free_le_length_succ (conns : List Conn) :
    ∃ c, 1 ≤ c ∧ c ≤ conns.length + 1 ∧ ChannelFree conns c := by
  have hcard : (conns.map (fun c => c.channelNo)).toFinset.card <
      (Finset.Icc 1 (conns.length + 1)).card := by
    have h1 := List.toFinset_card_le (conns.map (fun c => c.channelNo))
    rw [List.length_map] at h1
    rw [Nat.card_Icc]
    omega
  by_contra hall
  have hsub : Finset.Icc 1 (conns.length + 1) ⊆
      (conns.map (fun c => c.channelNo)).toFinset := by
    intro c hc
    rw [Finset.mem_Icc] at hc
    by_contra hnot
    apply hall
    refine ⟨c, hc.1, hc.2, ?_⟩
    intro x hx he
    apply hnot
    rw [List.mem_toFinset]
    exact he ▸ List.mem_map_of_mem _ hx
  have := Finset.card_le_card hsub
  omega

/-- C20: for a registry holding `n` connections with `n + 1 < 0x7FFFFFFF`,
`getChannelNo` returns a value in `[1, n + 1]` and pushes no error; hence it
returns `0`, or pushes the "Maximum theoretical channel count reached!"
error, only if the registry holds at least `0x7FFFFFFE` connections. -/
theorem getChannelNo_le_length_succ (conns : List Conn) :
    (conns.length + 1 < 0x7FFFFFFF →
      1 ≤ (getChannelNo conns).val ∧ (getChannelNo conns).val ≤ conns.length + 1 ∧
      (getChannelNo conns).log = []) ∧
    ((getChannelNo conns).val = 0 → 0x7FFFFFFE ≤ conns.length) ∧
    ((getChannelNo conns).log ≠ [] → 0x7FFFFFFE ≤ conns.length) := by
  obtain ⟨a1, a2, a3, a4⟩ := getChannelNo_loop_spec conns 0x7FFFFFFF 1 (by omega) (by omega)
  obtain ⟨c, hc1, hc2, hfree⟩ := exists_free_le_length_succ conns
  have hle : conns.length + 1 < 0x7FFFFFFF →
      getChannelNo.loop conns 0x7FFFFFFF 1 ≤ conns.length + 1 := by
    intro hn
    by_contra hgt
    exact a3 c hc1 (by omega) hfree
  have key : conns.length + 1 < 0x7FFFFFFF →
      1 ≤ (getChannelNo conns).val ∧ (getChannelNo conns).val ≤ conns.length + 1 ∧
      (getChannelNo conns).log = [] := by
    intro hn
    unfold getChannelNo
    by_cases h0 : conns.length = 0
    · simp only [h0, if_true]
      exact ⟨le_refl _, by omega, trivial⟩
    · have hne : getChannelNo.loop conns 0x7FFFFFFF 1 ≠ 0x7FFFFFFF := by
        have := hle hn
        omega
      simp only [if_neg h0, if_neg hne]
      exact ⟨a1, hle hn, trivial⟩
  refine ⟨key, ?_, ?_⟩
  · intro hz
    by_contra hlt
    have := (key (by omega)).1
    omega
  · intro hlog
    by_contra hlt
    exact hlog (key (by omega)).2.2

theorem getChannelNo_le_length_succ_witness :
    1 ≤ (getChannelNo [mkConn 7 1, mkConn 8 3]).val ∧
    (getChannelNo [mkConn 7 1, mkConn 8 3]).val ≤ 3 ∧
    (getChannelNo [mkConn 7 1, mkConn 8 3]).log = [] :=
  (getChannelNo_le_length_succ [mkConn 7 1, mkConn 8 3]).1 (by decide)

/-! ## `waitFor` on an unregistered channel -/

theorem neverContains_of_unregistered {conns : List Conn} {channel : Int} (str : List Nat)
    (h : ¬ Registered conns channel) :
    NeverContains conns channel str ∧ BufferFitsInt conns channel :=
  ⟨fun c hc e => absurd ⟨c, hc, e⟩ h, fun c hc e => absurd ⟨c, hc, e⟩ h⟩

theorem waitFor_loop_never_ends (clock : Nat → Nat) (env : Nat → List Conn) (channel : Int)
    (str : List Nat) (hch : channel ≠ -1)
    (henv : ∀ k, 1 ≤ k → ¬ Registered (env k) channel) :
    ∀ (fuel k : Nat) (conns : List Conn), ¬ Registered conns channel →
      (waitFor.loop clock env channel str 0 fuel k conns).val = Outcome.waiting := by
  intro fuel
  induction fuel with
  | zero => intro k conns _; rfl
  | succ f ih =>
    intro k conns hno
    obtain ⟨h1, h2⟩ := neverContains_of_unregistered str hno
    rw [waitFor.loop]
    simp only [waitFor_poll_no_match channel str conns hch h1 h2, if_true]
    exact ih (k + 1) (env (k + 1)) (henv (k + 1) (by omega))

/-- C15, as the code has it: for a channel id that is the channel number of no
registered connection, `waitFor` returns `false` at once, with a "Bad
channel" error, when the id is `-1`; for another such id that stays
unregistered it returns `false` when `timeSec > 0`, after the first sleep at
whose end the clock has reached `start + timeSec` (the `K`-th reading); with
`timeSec = 0` it does not return: it is still in its loop after any number of
iterations. -/
theorem waitFor_unregistered (clock : Nat → Nat) (env : Nat → List Conn) (fuel K : Nat)
    (channel : Int) (str : List Nat) (timeSec : Nat) (conns : List Conn) :
    (channel = -1 →
      waitFor clock env fuel channel str timeSec conns =
        ⟨Outcome.ret false, conns,
          [Event.errPush (-1) "Bad channel: %i specified for waiting." [channel]]⟩) ∧
    (channel ≠ -1 → ¬ Registered conns channel →
      (∀ k, 1 ≤ k → ¬ Registered (env k) channel) →
      (timeSec = 0 →
        (waitFor clock env fuel channel str timeSec conns).val = Outcome.waiting) ∧
      (0 < timeSec → 1 ≤ K → K ≤ fuel →
        (∀ k, 1 ≤ k → k < K → clock k < clock 0 + timeSec) →
        clock 0 + timeSec ≤ clock K →
        waitFor clock env fuel channel str timeSec conns =
          ⟨Outcome.ret false, env K, []⟩)) := by
  constructor
  · intro h
    simp only [waitFor, if_pos h]
  · intro hch hno henv
    constructor
    · intro hz
      simp only [waitFor, if_neg hch, hz, ne_eq, not_true_eq_false, if_false]
      exact waitFor_loop_never_ends clock env channel str hch henv fuel 0 conns hno
    · intro hts hK hfuel hearly hlate
      have hne : timeSec ≠ 0 := by omega
      obtain ⟨h1, h2⟩ := neverContains_of_unregistered str hno
      have hrun := (waitFor_loop_expires clock env channel str (clock 0 + timeSec) K hch
        (by omega) (fun k a b => neverContains_of_unregistered str (henv k a))
        hearly hlate K 0 fuel conns (by omega) hK h1 h2).1 hfuel
      simp only [waitFor, if_neg hch, hne, ne_eq, not_false_eq_true, if_true]
      exact hrun

/-- C15, counterexample: no connection is numbered 5 (the registry holds one
connection, numbered 1, and stays as it is), and `waitFor(5, "a", 0)` does not
return `false`: whatever the number of iterations, it is still in its loop. -/
theorem waitFor_unregistered_zero_timeout_loops :
    (∀ x ∈ [mkConn 7 1], (x.channelNo : Int) ≠ 5) ∧
    (∀ fuel, (waitFor (fun k => k) (fun _ => [mkConn 7 1]) fuel 5 [97] 0 [mkConn 7 1]).val =
      Outcome.waiting) ∧
    (waitFor (fun k => k) (fun _ => [mkConn 7 1]) 1000 5 [97] 0 [mkConn 7 1]).val ≠
      Outcome.ret false := by
  have hno : ¬ Registered [mkConn 7 1] 5 := by
    rintro ⟨x, hx, e⟩
    rw [List.mem_singleton.mp hx] at e
    exact absurd e (by decide)
  have hall : ∀ fuel,
      (waitFor (fun k => k) (fun _ => [mkConn 7 1]) fuel 5 [97] 0 [mkConn 7 1]).val =
        Outcome.waiting := by
    intro fuel
    simp only [waitFor, ne_eq, not_true_eq_false, if_false]
    rw [if_neg (by decide)]
    exact waitFor_loop_never_ends _ _ 5 [97] (by decide) (fun _ _ => hno) fuel 0 _ hno
  refine ⟨by decide, hall, ?_⟩
  rw [hall 1000]
  decide

/-! ## `sendCmd` after the registry changed during a sleep -/

/-- C19, the code at the failing inputs.  `sendCmd` is called on the
connection numbered 2 and the send succeeds.  (1) The registry is `[B]` and
the connection is erased during the first sleep: the loop condition reads
`_connections[0]` of an empty vector, where the claim has `sendCmd` return
`false` with a "Bad channel" error; the only call made is the connection's
`sendCmd`.  (2) The registry is `[A, B]` with `A` command-closed, and the
erasing loop of `selectThread` removes `A` during the first sleep: the loop
condition reads `_connections[1]` of a one-element vector.  Both happen with
`timeout = 0` and with `timeout > 0`. -/
theorem sendCmd_reads_past_the_vector :
    (sendCmd okApi (fun _ => 0) (fun _ => []) 5 [108, 115] 2 0 [mkConn 8 2]).val =
      Outcome.ub ∧
    (sendCmd okApi (fun _ => 0) (fun _ => []) 5 [108, 115] 2 0 [mkConn 8 2]).log =
      [Event.connSendCmd 8 [108, 115]] ∧
    (sendCmd okApi (fun k => 100 + k) (fun _ => []) 5 [108, 115] 2 10 [mkConn 8 2]).val =
      Outcome.ub ∧
    (selectThread.fdPass [{ mkConn 7 1 with isCmdClosed := true }, mkConn 8 2]).conns =
      [mkConn 8 2] ∧
    (sendCmd okApi (fun _ => 0) (fun _ => [mkConn 8 2]) 5 [108, 115] 2 0
      [{ mkConn 7 1 with isCmdClosed := true }, mkConn 8 2]).val = Outcome.ub ∧
    (sendCmd okApi (fun k => 100 + k) (fun _ => [mkConn 8 2]) 5 [108, 115] 2 10
      [{ mkConn 7 1 with isCmdClosed := true }, mkConn 8 2]).val = Outcome.ub :=
  ⟨by decide, by decide, by decide, by decide, by decide, by decide⟩

/-! ## The second loop of `selectThread` -/

theorem filter_eraseIdx_of_false {α : Type} (p : α → Bool) :
    ∀ (l : List α) (i : Nat) (a : α), l[i]? = some a → p a = false →
      (l.eraseIdx i).filter p = l.filter p := by
  intro l
  induction l with
  | nil => intro i a h; simp at h
  | cons x t ih =>
    intro i a h hp
    cases i with
    | zero =>
      simp only [List.getElem?_cons_zero, Option.some.injEq] at h
      subst h
      simp only [List.eraseIdx_cons_zero, List.filter_cons, hp, Bool.false_eq_true, if_false]
    | succ j =>
      simp only [List.getElem?_cons_succ] at h
      simp only [List.eraseIdx_cons_succ, List.filter_cons, ih j a h hp]

theorem buildFdSet_keeps_unfinished :
    ∀ (fuel i : Nat) (s : FdPass),
      (selectThread.buildFdSet fuel i s).conns.filter (fun c => !c.finished) =
        s.conns.filter (fun c => !c.finished) := by
  intro fuel
  induction fuel with
  | zero => intro i s; rfl
  | succ n ih =>
    intro i s
    unfold selectThread.buildFdSet
    cases hget : s.conns[i]? with
    | none => rfl
    | some c =>
      simp only
      split
      · exact ih _ _
      · rename_i hlive
        split
        · rename_i hfin
          rw [ih]
          refine filter_eraseIdx_of_false _ s.conns i c hget ?_
          simp only [Conn.finished, Conn.live, hlive, hfin, Bool.not_false, Bool.and_self,
            Bool.not_true]
        · exact ih _ _

theorem buildFdSet_rd_sound :
    ∀ (fuel i : Nat) (s : FdPass), ∀ x ∈ (selectThread.buildFdSet fuel i s).rd,
      x ∈ s.rd ∨ ∃ c ∈ s.conns, c.live = true ∧ c.socket = x := by
  intro fuel
  induction fuel with
  | zero => intro i s x hx; exact Or.inl hx
  | succ n ih =>
    intro i s x hx
    unfold selectThread.buildFdSet at hx
    cases hget : s.conns[i]? with
    | none =>
      rw [hget] at hx
      exact Or.inl hx
    | some c =>
      rw [hget] at hx
      simp only at hx
      split at hx
      · rename_i hlive
        rcases ih _ _ x hx with h | ⟨d, hd, h1, h2⟩
        · simp only [List.mem_append, List.mem_singleton] at h
          rcases h with h | h
          · exact Or.inl h
          · exact Or.inr ⟨c, List.getElem?_mem hget, by simpa [Conn.live] using hlive, h.symm⟩
        · exact Or.inr ⟨d, hd, h1, h2⟩
      · split at hx
        · rcases ih _ _ x hx with h | ⟨d, hd, h1, h2⟩
          · exact Or.inl h
          · exact Or.inr ⟨d, (List.eraseIdx_subset _ _) hd, h1, h2⟩
        · exact ih _ _ x hx

theorem buildFdSet_without_finished :
    ∀ (fuel i : Nat) (s : FdPass), (∀ c ∈ s.conns, c.finished = false) →
      s.conns.length ≤ fuel + i →
      (selectThread.buildFdSet fuel i s).conns = s.conns ∧
      (selectThread.buildFdSet fuel i s).rd =
        s.rd ++ ((s.conns.drop i).filter (fun c => c.live)).map (fun c => c.socket) := by
  intro fuel
  induction fuel with
  | zero =>
    intro i s _ hlen
    rw [selectThread.buildFdSet, List.drop_of_length_le (by omega)]
    simp
  | succ n ih =>
    intro i s hfin hlen
    rw [selectThread.buildFdSet]
    cases hget : s.conns[i]? with
    | none =>
      have hge : s.conns.length ≤ i := by
        by_contra hlt
        rw [List.getElem?_eq_getElem (by omega)] at hget
        cases hget
      rw [List.drop_of_length_le hge]
      simp
    | some c =>
      have hlt : i < s.conns.length := by
        by_contra hge
        rw [List.getElem?_eq_none (by omega)] at hget
        cases hget
      have hc : s.conns[i] = c := by
        rw [List.getElem?_eq_getElem hlt] at hget
        exact Option.some.inj hget
      have hdrop : s.conns.drop i = c :: s.conns.drop (i + 1) := by
        rw [← hc]
        exact List.drop_eq_getElem_cons hlt
      have hcfin : c.finished = false := hfin c (List.getElem?_mem hget)
      simp only
      split
      · rename_i hlive
        have hl : c.live = true := by simpa [Conn.live] using hlive
        obtain ⟨h1, h2⟩ := ih (i + 1)
          { s with rfds := if s.rfds > c.socket then s.rfds else c.socket,
                   rd := s.rd ++ [c.socket], fdIsSet := true } hfin (by simp only; omega)
        refine ⟨h1, ?_⟩
        rw [h2, hdrop]
        simp [hl]
      · rename_i hlive
        have hl : c.live = false := by
          cases h : c.live
          · rfl
          · exact absurd (by simpa [Conn.live] using h) hlive
        split
        · rename_i herase
          have : c.finished = true := by
            simp only [Conn.finished, hl, Bool.not_false, Bool.true_and]
            exact herase
          rw [hcfin] at this
          cases this
        · obtain ⟨h1, h2⟩ := ih (i + 1) s hfin (by omega)
          refine ⟨h1, ?_⟩
          rw [h2, hdrop]
          simp [hl]

theorem fdPass_without_finished (conns : List Conn) (h : ∀ c ∈ conns, c.finished = false) :
    (selectThread.fdPass conns).conns = conns ∧
    (selectThread.fdPass conns).rd =
      (conns.filter (fun c => c.live)).map (fun c => c.socket) := by
  have := buildFdSet_without_finished conns.length 0
    { conns := conns, rd := [], rfds := 0, fdIsSet := false } h (by simp)
  simpa [selectThread.fdPass] using this

/-- C18: the second loop of `selectThread` erases only finished connections.
The registry it leaves is a sublist of the registry it found, so the
surviving connections keep their order and are unchanged, channel numbers
included; the connections that are open and run a remote shell or a command
are all still there; and so are all the connections that are not finished, so
every erased connection was connected with a remote shell, or
command-closed, and not open-and-running. -/
theorem selectThread_erases_only_finished (conns : List Conn) :
    (selectThread.fdPass conns).conns.Sublist conns ∧
    (selectThread.fdPass conns).conns.filter (fun c => c.live) =
      conns.filter (fun c => c.live) ∧
    (selectThread.fdPass conns).conns.filter (fun c => !c.finished) =
      conns.filter (fun c => !c.finished) := by
  have hkeep := buildFdSet_keeps_unfinished conns.length 0
    { conns := conns, rd := [], rfds := 0, fdIsSet := false }
  refine ⟨buildFdSet_sublist _ _ _, ?_, hkeep⟩
  have hlive : ∀ l : List Conn,
      l.filter (fun c => c.live) =
        (l.filter (fun c => !c.finished)).filter (fun c => c.live) := by
    intro l
    rw [List.filter_filter]
    apply List.filter_congr
    intro c _
    cases h : c.live <;> simp [Conn.finished, h]
  rw [hlive, hlive conns]
  exact congrArg _ hkeep

/-- C16, the code at the failing input.  The registry is `[A, B]`: `A` is
command-closed and `B`, on socket 4, is open and runs a command.  The loop
erases `A` at index 0 and goes on at index 1, past `B`, which has moved to
index 0: `B` is never examined, the descriptor set is left empty and
`fdIsSet` false, although `B` is still in the registry. -/
theorem selectThread_skips_live_connection :
    ({ mkConn 8 2 with isOpen := true, isCmdRunning := true, socket := 4 } : Conn).live = true ∧
    (selectThread.fdPass
      [{ mkConn 7 1 with isCmdClosed := true, socket := 3 },
        { mkConn 8 2 with isOpen := true, isCmdRunning := true, socket := 4 }]).rd = [] ∧
    (selectThread.fdPass
      [{ mkConn 7 1 with isCmdClosed := true, socket := 3 },
        { mkConn 8 2 with isOpen := true, isCmdRunning := true, socket := 4 }]).fdIsSet = false ∧
    (selectThread.fdPass
      [{ mkConn 7 1 with isCmdClosed := true, socket := 3 },
        { mkConn 8 2 with isOpen := true, isCmdRunning := true, socket := 4 }]).conns =
      [{ mkConn 8 2 with isOpen := true, isCmdRunning := true, socket := 4 }] :=
  ⟨by decide, by decide, by decide, by decide⟩

/-- C17, the code at the failing input.  The registry is `[A, B]` with both
connections command-closed.  The loop erases `A` at index 0 and goes on at
index 1, past `B`, which has moved to index 0: after the pass the finished
connection `B` is still in the registry. -/
theorem selectThread_leaves_adjacent_finished :
    ({ mkConn 7 1 with isCmdClosed := true } : Conn).finished = true ∧
    ({ mkConn 8 2 with isCmdClosed := true } : Conn).finished = true ∧
    (selectThread.fdPass
      [{ mkConn 7 1 with isCmdClosed := true }, { mkConn 8 2 with isCmdClosed := true }]).conns =
      [{ mkConn 8 2 with isCmdClosed := true }] :=
  ⟨by decide, by decide, by decide⟩

/-! ## Where connections leave the registry -/

theorem map_addr_set_after (conns : List Conn) (i : Nat) (c c' : Conn)
    (h : conns[i]? = some c) :
    (conns.set i (c.after c')).map (fun x => x.addr) = conns.map (fun x => x.addr) := by
  apply List.ext_getElem?
  intro n
  rw [List.getElem?_map, List.getElem?_map, List.getElem?_set]
  split
  · rename_i hin
    subst hin
    split
    · simp [h, Conn.after]
    · rename_i hlt
      rw [List.getElem?_eq_none (by omega)] at h
      cases h
  · rfl

theorem close_loop_map_addr (api : ConnApi) (channel : Int) :
    ∀ (conns : List Conn) (status : Bool),
      (close.loop api channel conns status).conns.map (fun x => x.addr) =
        conns.map (fun x => x.addr) := by
  intro conns
  induction conns with
  | nil => intro status; rfl
  | cons a t ih =>
    intro status
    by_cases ha : (a.channelNo : Int) = channel
    · simp only [close.loop, if_pos ha, List.map_cons, ih, Conn.after]
    · simp only [close.loop, if_neg ha, List.map_cons, ih]

theorem sendCmd_waitForever_conns (env : Nat → List Conn) (channel : Int) :
    ∀ (fuel k i : Nat) (conns : List Conn),
      (sendCmd.waitForever env channel fuel k i conns).conns = conns ∨
      ∃ n, (sendCmd.waitForever env channel fuel k i conns).conns = env n := by
  intro fuel
  induction fuel with
  | zero => intro k i conns; exact Or.inl rfl
  | succ f ih =>
    intro k i conns
    rw [sendCmd.waitForever]
    split
    · exact Or.inl rfl
    · split
      · exact Or.inl rfl
      · simp only
        split
        · exact Or.inl rfl
        · split
          · exact Or.inl rfl
          · split
            · rcases ih (k + 1) (findChannel conns channel) (env (k + 1)) with h | ⟨n, h⟩
              · exact Or.inr ⟨k + 1, h⟩
              · exact Or.inr ⟨n, h⟩
            · exact ih k (findChannel conns channel) conns

theorem sendCmd_waitUntil_conns (clock : Nat → Nat) (env : Nat → List Conn) (channel : Int)
    (cutoff : Int) :
    ∀ (fuel k i : Nat) (conns : List Conn),
      (sendCmd.waitUntil clock env channel cutoff fuel k i conns).conns = conns ∨
      ∃ n, (sendCmd.waitUntil clock env channel cutoff fuel k i conns).conns = env n := by
  intro fuel
  induction fuel with
  | zero => intro k i conns; exact Or.inl rfl
  | succ f ih =>
    intro k i conns
    have hstep : ∀ r : Ret (Outcome Bool),
        (r.conns = env (k + 1) ∨ ∃ n, r.conns = env n) → ∃ n, r.conns = env n := by
      rintro r (h | ⟨n, h⟩)
      · exact ⟨k + 1, h⟩
      · exact ⟨n, h⟩
    rw [sendCmd.waitUntil]
    split
    · exact Or.inl rfl
    · split
      · exact Or.inl rfl
      · simp only
        split
        · exact Or.inl rfl
        · split
          · exact Or.inl rfl
          · split
            · split
              · exact Or.inr (hstep _ (ih (k + 1) _ (env (k + 1))))
              · split
                · exact Or.inr ⟨k + 1, rfl⟩
                · exact Or.inr (hstep _ (ih (k + 1) _ (env (k + 1))))
            · exact ih k (findChannel conns channel) conns

theorem waitFor_loop_conns (clock : Nat → Nat) (env : Nat → List Conn) (channel : Int)
    (str : List Nat) (cutoff : Nat) :
    ∀ (fuel k : Nat) (conns : List Conn),
      (waitFor.loop clock env channel str cutoff fuel k conns).conns = conns ∨
      ∃ n, (waitFor.loop clock env channel str cutoff fuel k conns).conns = env n := by
  intro fuel
  induction fuel with
  | zero => intro k conns; exact Or.inl rfl
  | succ f ih =>
    intro k conns
    have hstep : ∀ r : Ret (Outcome Bool),
        (r.conns = env (k + 1) ∨ ∃ n, r.conns = env n) → ∃ n, r.conns = env n := by
      rintro r (h | ⟨n, h⟩)
      · exact ⟨k + 1, h⟩
      · exact ⟨n, h⟩
    rw [waitFor.loop]
    simp only
    split
    · split
      · exact Or.inr (hstep _ (ih (k + 1) (env (k + 1))))
      · split
        · exact Or.inr ⟨k + 1, rfl⟩
        · exact Or.inr (hstep _ (ih (k + 1) (env (k + 1))))
    · exact Or.inl (waitFor_poll_conns channel str conns)

theorem connectWith_conns (attempt : Conn → Int × Conn) (init : Conn)
    (during : List Conn → List Conn) (conns : List Conn) :
    (connectWith attempt init during conns).conns =
      connectWith.attempted attempt init during conns ∨
    ((connectWith attempt init during conns).val = -1 ∧
      ∃ z c, (connectWith.attempted attempt init during conns)[z]? = some c ∧
        c.addr = newAddr conns ∧
        (connectWith attempt init during conns).conns =
          (connectWith.attempted attempt init during conns).eraseIdx z) := by
  unfold connectWith
  simp only
  split
  · rename_i hfail
    unfold connectCleanup
    simp only
    split
    · exact Or.inl rfl
    · rename_i hz
      right
      have hlt : List.findIdx (fun c => decide (c.addr = newAddr conns))
          (connectWith.attempted attempt init during conns) <
          (connectWith.attempted attempt init during conns).length := by
        have hle : List.findIdx (fun c => decide (c.addr = newAddr conns))
            (connectWith.attempted attempt init during conns) ≤
            (connectWith.attempted attempt init during conns).length :=
          List.findIdx_le_length _
        exact lt_of_le_of_ne hle hz
      refine ⟨by simp [hfail], _, _, List.getElem?_eq_getElem hlt, ?_, rfl⟩
      have := List.findIdx_of_getElem?_eq_some (List.getElem?_eq_getElem hlt)
      simpa using this
  · exact Or.inl rfl

/-- C11, as the code has it: none of `send`, `initSftp`, `close`, `read`,
`readBinary`, `getReceivedSize`, `sendCmd` and `waitFor` removes an element
from the vector: the first three leave the same objects at the same places,
the next three leave the registry as it is, and the registry the last two
leave is the one they were called on, with the same objects at the same
places, or one the other threads put in place while they slept.
`connectWithPassword` and `connectWithKey` do erase: when the attempt returns
`-1` they erase one entry, at the address of the connection they pushed
themselves; otherwise they leave the registry as it stands after the
attempt. -/
theorem only_connect_erases_besides_reactor (api : ConnApi) (clock : Nat → Nat)
    (env : Nat → List Conn) (fuel : Nat) (data cmd str : List Nat) (channel timeout : Int)
    (timeSec : Nat) (_sftp : Ne7SftpSubsystem) (init : Conn)
    (during : List Conn → List Conn) (conns : List Conn) :
    (send api data channel conns).conns.map (fun x => x.addr) =
      conns.map (fun x => x.addr) ∧
    (initSftp api _sftp channel conns).conns.map (fun x => x.addr) =
      conns.map (fun x => x.addr) ∧
    (close api channel conns).conns.map (fun x => x.addr) = conns.map (fun x => x.addr) ∧
    (read channel conns).conns = conns ∧
    (readBinary channel conns).conns = conns ∧
    (getReceivedSize channel conns).conns = conns ∧
    ((sendCmd api clock env fuel cmd channel timeout conns).conns.map (fun x => x.addr) =
        conns.map (fun x => x.addr) ∨
      ∃ n, (sendCmd api clock env fuel cmd channel timeout conns).conns = env n) ∧
    ((waitFor clock env fuel channel str timeSec conns).conns = conns ∨
      ∃ n, (waitFor clock env fuel channel str timeSec conns).conns = env n) ∧
    ((connectWithPassword api init during conns).conns =
        connectWith.attempted api.connectWithPassword init during conns ∨
      ((connectWithPassword api init during conns).val = -1 ∧
        ∃ z c, (connectWith.attempted api.connectWithPassword init during conns)[z]? = some c ∧
          c.addr = newAddr conns ∧
          (connectWithPassword api init during conns).conns =
            (connectWith.attempted api.connectWithPassword init during conns).eraseIdx z)) ∧
    ((connectWithKey api init during conns).conns =
        connectWith.attempted api.connectWithKey init during conns ∨
      ((connectWithKey api init during conns).val = -1 ∧
        ∃ z c, (connectWith.attempted api.connectWithKey init during conns)[z]? = some c ∧
          c.addr = newAddr conns ∧
          (connectWithKey api init during conns).conns =
            (connectWith.attempted api.connectWithKey init during conns).eraseIdx z)) := by
  refine ⟨?_, ?_, ?_, read_conns channel conns, ?_, rfl, ?_, ?_,
    connectWith_conns _ init during conns, connectWith_conns _ init during conns⟩
  · unfold send
    simp only
    split
    · rename_i c hc
      exact map_addr_set_after conns _ c _ hc
    · rfl
  · unfold initSftp
    simp only
    split
    · rename_i c hc
      split <;> exact map_addr_set_after conns _ c _ hc
    · rfl
  · unfold close
    split
    · rfl
    · exact close_loop_map_addr api channel conns false
  · unfold readBinary
    split <;> rfl
  · unfold sendCmd
    simp only
    split
    · exact Or.inl rfl
    · rename_i c hc
      have hset := map_addr_set_after conns (findChannel conns channel) c (api.sendCmd c cmd).2 hc
      split
      · exact Or.inl hset
      · split
        · rcases sendCmd_waitForever_conns env channel fuel 0 (findChannel conns channel)
            (conns.set (findChannel conns channel) (c.after (api.sendCmd c cmd).2)) with h | h
          · exact Or.inl (by simp only [h, hset])
          · exact Or.inr h
        · split
          · rcases sendCmd_waitUntil_conns clock env channel ((clock 0 : Int) + timeout) fuel 0
              (findChannel conns channel)
              (conns.set (findChannel conns channel) (c.after (api.sendCmd c cmd).2)) with h | h
            · exact Or.inl (by simp only [h, hset])
            · exact Or.inr h
          · exact Or.inl hset
  · unfold waitFor
    simp only
    split
    · exact Or.inl rfl
    · exact waitFor_loop_conns clock env channel str _ fuel 0 conns

/-- C11, counterexample: the registry holds one connection and the attempt of
`connectWithPassword` returns `-1`, nothing else touching the registry.  When
the attempt returns, the vector holds two entries, the old connection and the
new one, numbered 2; when `connectWithPassword` returns, `-1`, it holds the
old connection only: `connectWithPassword` has erased an entry. -/
theorem connectWithPassword_erases :
    connectWith.attempted failApi.connectWithPassword (mkConn 0 0) id [mkConn 1 1] =
      [mkConn 1 1, mkConn 2 2] ∧
    (connectWithPassword failApi (mkConn 0 0) id [mkConn 1 1]).conns = [mkConn 1 1] ∧
    (connectWithPassword failApi (mkConn 0 0) id [mkConn 1 1]).val = -1 ∧
    (connectWithKey failApi (mkConn 0 0) id [mkConn 1 1]).conns = [mkConn 1 1] :=
  ⟨by decide, by decide, by decide, by decide⟩

/-! ## Algorithm lists -/

/-- C12: in the default build (`_DEMO_BUILD` not defined) each offered
algorithm list, split on its commas, is a rearrangement of the menu of the
spec for its category, hence the same set of names; no list is empty, none
holds the empty name and none holds a name twice. -/
theorem algorithm_lists_are_the_menu :
    ((splitNames (KEX_ALGORITHMS false)).Perm specMenuKex ∧
      (splitNames (HOSTKEY_ALGORITHMS false)).Perm specMenuHostKey ∧
      (splitNames (CIPHER_ALGORITHMS false)).Perm specMenuCipher ∧
      (splitNames (MAC_ALGORITHMS false)).Perm specMenuMac ∧
      (splitNames COMPRESSION_ALGORITHMS).Perm specMenuCompression) ∧
    ((splitNames (KEX_ALGORITHMS false)).Nodup ∧
      (splitNames (HOSTKEY_ALGORITHMS false)).Nodup ∧
      (splitNames (CIPHER_ALGORITHMS false)).Nodup ∧
      (splitNames (MAC_ALGORITHMS false)).Nodup ∧
      (splitNames COMPRESSION_ALGORITHMS).Nodup) ∧
    (splitNames (KEX_ALGORITHMS false) ≠ [] ∧
      splitNames (HOSTKEY_ALGORITHMS false) ≠ [] ∧
      splitNames (CIPHER_ALGORITHMS false) ≠ [] ∧
      splitNames (MAC_ALGORITHMS false) ≠ [] ∧
      splitNames COMPRESSION_ALGORITHMS ≠ []) ∧
    ("" ∉ splitNames (KEX_ALGORITHMS false) ∧
      "" ∉ splitNames (HOSTKEY_ALGORITHMS false) ∧
      "" ∉ splitNames (CIPHER_ALGORITHMS false) ∧
      "" ∉ splitNames (MAC_ALGORITHMS false) ∧
      "" ∉ splitNames COMPRESSION_ALGORITHMS) := by
  have hkex : splitNames (KEX_ALGORITHMS false) =
      ["diffie-hellman-group1-sha1", "diffie-hellman-group14-sha1"] := by decide
  have hhost : splitNames (HOSTKEY_ALGORITHMS false) = ["ssh-dss", "ssh-rsa"] := by decide
  have hcipher : splitNames (CIPHER_ALGORITHMS false) =
      ["aes256-cbc", "aes192-cbc", "twofish-cbc", "twofish256-cbc", "blowfish-cbc", "3des-cbc",
        "aes128-cbc", "cast128-cbc"] := by decide
  have hmac : splitNames (MAC_ALGORITHMS false) = ["hmac-md5", "hmac-sha1", "none"] := by
    decide
  have hcomp : splitNames COMPRESSION_ALGORITHMS = ["none"] := by decide
  rw [hkex, hhost, hcipher, hmac, hcomp]
  refine ⟨⟨?_, ?_, ?_, ?_, ?_⟩, ⟨?_, ?_, ?_, ?_, ?_⟩, ⟨?_, ?_, ?_, ?_, ?_⟩,
    ⟨?_, ?_, ?_, ?_, ?_⟩⟩ <;> decide

/-! ## `generateKeyPair` -/

theorem memcmp3_eq_prefix (type lit : List Nat) (hlen : 2 ≤ type.length)
    (hlit : lit.length = 3) (hnz : ∀ b ∈ lit, b ≠ 0) :
    memcmp3 type lit = some (decide (lit <+: type)) := by
  obtain ⟨x, y, z, rfl⟩ : ∃ x y z, lit = [x, y, z] := by
    match lit, hlit with
    | [x, y, z], _ => exact ⟨x, y, z, rfl⟩
  have hz : z ≠ 0 := hnz z (by simp)
  match type, hlen with
  | [a, b], _ =>
    have h1 : ¬ ([a, b, 0] = [x, y, z]) := by
      intro h
      simp only [List.cons.injEq, and_true] at h
      exact hz h.2.2.symm
    have h2 : ¬ ([x, y, z] <+: [a, b]) := by
      intro h
      have := h.length_le
      simp at this
    simp only [memcmp3, List.cons_append, List.nil_append, List.length_cons, List.length_nil,
      List.take_succ_cons, List.take_zero]
    simp [h1, h2]
  | a :: b :: c :: r, _ =>
    simp only [memcmp3, List.cons_append, List.length_cons, List.take_succ_cons, List.take_zero]
    have hiff : ([a, b, c] = [x, y, z]) ↔ ([x, y, z] <+: a :: b :: c :: r) := by
      simp only [List.cons.injEq, and_true, List.cons_prefix_cons, List.nil_prefix]
      constructor
      · rintro ⟨h1, h2, h3⟩
        exact ⟨h1.symm, h2.symm, h3.symm⟩
      · rintro ⟨h1, h2, h3⟩
        exact ⟨h1.symm, h2.symm, h3.symm⟩
    simp only [decide_eq_decide.mpr hiff]
    simp

theorem generateKeyPair_short_type (api : KeysApi) (type : List Nat)
    (fqdn privKeyFileName pubKeyFileName : String) (keySize : Nat) (hlen : type.length < 2) :
    (generateKeyPair api type fqdn privKeyFileName pubKeyFileName keySize).val = Outcome.ub := by
  have h : ¬ (3 ≤ (type ++ [0]).length) := by
    rw [List.length_append, List.length_singleton]
    omega
  simp only [generateKeyPair, memcmp3, if_neg h]

/-- C13, as the code has it: for a type string of two characters or more,
`generateKeyPair` calls DSA key generation exactly when the string begins with
"dsa" and RSA key generation exactly when it begins with "rsa", in both
cases once, passing the key size when it is non-zero and no key size when it
is 0, and returning the result of the generator; for every other such string
it calls no generator, pushes the "not supported" error and returns
`false`. -/
theorem generateKeyPair_dispatches_on_first_three_bytes (api : KeysApi) (type : List Nat)
    (fqdn privKeyFileName pubKeyFileName : String) (keySize : Nat)
    (hlen : 2 ≤ type.length) :
    (ascii "dsa" <+: type →
      generateKeyPair api type fqdn privKeyFileName pubKeyFileName keySize =
        ⟨Outcome.ret (api.generateDSAKeys fqdn privKeyFileName pubKeyFileName
            (if keySize = 0 then none else some keySize)), [],
          [KeyCall.dsa fqdn privKeyFileName pubKeyFileName
            (if keySize = 0 then none else some keySize)]⟩) ∧
    (ascii "rsa" <+: type →
      generateKeyPair api type fqdn privKeyFileName pubKeyFileName keySize =
        ⟨Outcome.ret (api.generateRSAKeys fqdn privKeyFileName pubKeyFileName
            (if keySize = 0 then none else some keySize)), [],
          [KeyCall.rsa fqdn privKeyFileName pubKeyFileName
            (if keySize = 0 then none else some keySize)]⟩) ∧
    (¬ ascii "dsa" <+: type → ¬ ascii "rsa" <+: type →
      generateKeyPair api type fqdn privKeyFileName pubKeyFileName keySize =
        ⟨Outcome.ret false,
          [Event.errPush (-1) "The specfied key algorithm: %i not supported" [0]], []⟩) := by
  have hd := memcmp3_eq_prefix type (ascii "dsa") hlen (by decide) (by decide)
  have hr := memcmp3_eq_prefix type (ascii "rsa") hlen (by decide) (by decide)
  refine ⟨?_, ?_, ?_⟩
  · intro h
    simp only [generateKeyPair, hd, decide_eq_true h]
  · intro h
    have hnd : ¬ ascii "dsa" <+: type := by
      intro h'
      have h1 := List.prefix_iff_eq_take.mp h
      have h2 := List.prefix_iff_eq_take.mp h'
      have h3 : (ascii "rsa").length = (ascii "dsa").length := by decide
      rw [h3, ← h2] at h1
      exact absurd h1 (by decide)
    simp only [generateKeyPair, hd, hr, decide_eq_true h, decide_eq_false hnd]
  · intro h1 h2
    simp only [generateKeyPair, hd, hr, decide_eq_false h1, decide_eq_false h2]

theorem generateKeyPair_dispatches_on_first_three_bytes_witness :
    generateKeyPair okKeys (ascii "rsa") "me@host" "id_rsa" "id_rsa.pub" 2048 =
      ⟨Outcome.ret true, [], [KeyCall.rsa "me@host" "id_rsa" "id_rsa.pub" (some 2048)]⟩ ∧
    generateKeyPair okKeys (ascii "dsa") "me@host" "id_dsa" "id_dsa.pub" 0 =
      ⟨Outcome.ret true, [], [KeyCall.dsa "me@host" "id_dsa" "id_dsa.pub" none]⟩ ∧
    generateKeyPair okKeys (ascii "ecdsa") "me@host" "id" "id.pub" 0 =
      ⟨Outcome.ret false,
        [Event.errPush (-1) "The specfied key algorithm: %i not supported" [0]], []⟩ :=
  ⟨(generateKeyPair_dispatches_on_first_three_bytes okKeys (ascii "rsa") "me@host" "id_rsa"
      "id_rsa.pub" 2048 (by decide)).2.1 (by decide),
   (generateKeyPair_dispatches_on_first_three_bytes okKeys (ascii "dsa") "me@host" "id_dsa"
      "id_dsa.pub" 0 (by decide)).1 (by decide),
   (generateKeyPair_dispatches_on_first_three_bytes okKeys (ascii "ecdsa") "me@host" "id"
      "id.pub" 0 (by decide)).2.2 (by decide) (by decide)⟩

/-- C13, counterexample: the type string "dsax" is not "dsa", yet
`generateKeyPair` calls DSA key generation and returns its result, `true`,
pushing no error: only the first three bytes are compared. -/
theorem generateKeyPair_accepts_longer_name :
    ascii "dsax" ≠ ascii "dsa" ∧ ascii "dsax" ≠ ascii "rsa" ∧
    (generateKeyPair okKeys (ascii "dsax") "me@host" "id_dsa" "id_dsa.pub" 0).calls =
      [KeyCall.dsa "me@host" "id_dsa" "id_dsa.pub" none] ∧
    (generateKeyPair okKeys (ascii "dsax") "me@host" "id_dsa" "id_dsa.pub" 0).val =
      Outcome.ret true ∧
    (generateKeyPair okKeys (ascii "dsax") "me@host" "id_dsa" "id_dsa.pub" 0).log = [] :=
  ⟨by decide, by decide, by decide, by decide, by decide⟩

/-! ## Constructor `ne7ssh::ne7ssh` -/

/-- C14: when a `ne7ssh` object is constructed while `running` is true, the
constructor pushes one record, "Cannot initialize more than more instance
...", which is then the only record of the error log `errs` points to (the
constructor has first pointed `errs` to a new, empty log); it leaves `running`
true, does not write `rng` and starts no reactor thread. -/
theorem second_instance_is_reported (newErrs newInit newRng : Nat) (p : Process)
    (hrun : p.running = true) :
    (ne7ssh newErrs newInit newRng p).1.errLog =
      [Event.errPush (-1)
        "Cannot initialize more than more instance of ne7ssh class within the same application. Aborting."
        []] ∧
    (ne7ssh newErrs newInit newRng p).1.errs = newErrs ∧
    (ne7ssh newErrs newInit newRng p).1.running = true ∧
    (ne7ssh newErrs newInit newRng p).1.rng = p.rng ∧
    (ne7ssh newErrs newInit newRng p).1.threads = p.threads ∧
    (ne7ssh newErrs newInit newRng p).2.hasThread = false := by
  unfold ne7ssh
  simp only
  rw [if_pos hrun]
  refine ⟨?_, rfl, hrun, rfl, rfl, rfl⟩
  exact List.nil_append _

theorem second_instance_is_reported_witness :
    (ne7ssh 10 11 12 (ne7ssh 1 2 3
      { errs := 0, errLog := [], running := false, rng := 0, threads := 0 }).1).1.rng = 3 ∧
    (ne7ssh 10 11 12 (ne7ssh 1 2 3
      { errs := 0, errLog := [], running := false, rng := 0, threads := 0 }).1).1.threads = 1 ∧
    (ne7ssh 10 11 12 (ne7ssh 1 2 3
      { errs := 0, errLog := [], running := false, rng := 0, threads := 0 }).1).1.running = true :=
  have h := second_instance_is_reported 10 11 12
    (ne7ssh 1 2 3 { errs := 0, errLog := [], running := false, rng := 0, threads := 0 }).1
    (by decide)
  ⟨h.2.2.2.1, h.2.2.2.2.1, h.2.2.1⟩

/-! ## A connect that nobody interferes with -/

theorem store_push_fresh (conns : List Conn) (con c' : Conn)
    (hfresh : ∀ c ∈ conns, c.addr ≠ c'.addr) (hcon : con.addr = c'.addr) :
    store (conns ++ [con]) c' = conns ++ [c'] := by
  unfold store
  rw [List.map_append]
  congr 1
  · conv_rhs => rw [← List.map_id conns]
    apply List.map_congr_left
    intro c hc
    simp [hfresh c hc]
  · simp [hcon]

theorem connectCleanup_push_fresh (conns : List Conn) (c' : Conn)
    (hfresh : ∀ c ∈ conns, c.addr ≠ c'.addr) :
    connectCleanup c'.addr (conns ++ [c']) = ⟨true, conns, []⟩ := by
  have hidx : (conns ++ [c']).findIdx (fun c => decide (c.addr = c'.addr)) = conns.length := by
    rw [List.findIdx_append]
    have hnone : conns.findIdx (fun c => decide (c.addr = c'.addr)) = conns.length :=
      List.findIdx_eq_length_of_false (fun c hc => decide_eq_false (hfresh c hc))
    rw [hnone, if_neg (by omega)]
    simp [List.findIdx_cons]
  have hne : conns.length ≠ (conns ++ [c']).length := by
    rw [List.length_append, List.length_singleton]
    omega
  unfold connectCleanup
  simp only [hidx, if_neg hne]
  rw [List.eraseIdx_append_of_length_le (le_refl _), Nat.sub_self]
  simp

theorem connectWith_alone (attempt : Conn → Int × Conn) (init : Conn) (conns : List Conn) :
    (connectWith attempt init id conns).val = (attempt (connectWith.numbered init conns)).1 ∧
    ((attempt (connectWith.numbered init conns)).1 = -1 →
      (connectWith attempt init id conns).conns = conns) ∧
    ((attempt (connectWith.numbered init conns)).1 ≠ -1 →
      (connectWith attempt init id conns).conns =
        conns ++ [(connectWith.numbered init conns).after
          (attempt (connectWith.numbered init conns)).2]) := by
  have hreg : (connectRegister { init with addr := newAddr conns } conns).conns =
      conns ++ [connectWith.numbered init conns] := by
    unfold connectRegister connectWith.numbered
    exact setChannelNo_push_fresh conns { init with addr := newAddr conns } _
      (fun c hc => newAddr_fresh conns c hc)
  have hfresh : ∀ c ∈ conns, c.addr ≠
      ((connectWith.numbered init conns).after
        (attempt (connectWith.numbered init conns)).2).addr :=
    fun c hc => newAddr_fresh conns c hc
  have hstore : store (connectRegister { init with addr := newAddr conns } conns).conns
      ((connectWith.numbered init conns).after (attempt (connectWith.numbered init conns)).2) =
      conns ++ [(connectWith.numbered init conns).after
        (attempt (connectWith.numbered init conns)).2] := by
    rw [hreg]
    exact store_push_fresh conns _ _ hfresh rfl
  have hclean := connectCleanup_push_fresh conns
    ((connectWith.numbered init conns).after (attempt (connectWith.numbered init conns)).2)
    hfresh
  have haddr : ((connectWith.numbered init conns).after
      (attempt (connectWith.numbered init conns)).2).addr = newAddr conns := rfl
  rw [haddr] at hclean
  have hunfold : connectWith attempt init id conns =
      if (attempt (connectWith.numbered init conns)).1 = -1 then
        if (connectCleanup (newAddr conns)
            (store (connectRegister { init with addr := newAddr conns } conns).conns
              ((connectWith.numbered init conns).after
                (attempt (connectWith.numbered init conns)).2))).val then
          ⟨(attempt (connectWith.numbered init conns)).1,
            (connectCleanup (newAddr conns)
              (store (connectRegister { init with addr := newAddr conns } conns).conns
                ((connectWith.numbered init conns).after
                  (attempt (connectWith.numbered init conns)).2))).conns,
            (connectRegister { init with addr := newAddr conns } conns).log ++
              [Event.connConnect (newAddr conns)] ++
              (connectCleanup (newAddr conns)
                (store (connectRegister { init with addr := newAddr conns } conns).conns
                  ((connectWith.numbered init conns).after
                    (attempt (connectWith.numbered init conns)).2))).log⟩
        else
          ⟨-1,
            (connectCleanup (newAddr conns)
              (store (connectRegister { init with addr := newAddr conns } conns).conns
                ((connectWith.numbered init conns).after
                  (attempt (connectWith.numbered init conns)).2))).conns,
            (connectRegister { init with addr := newAddr conns } conns).log ++
              [Event.connConnect (newAddr conns)] ++
              (connectCleanup (newAddr conns)
                (store (connectRegister { init with addr := newAddr conns } conns).conns
                  ((connectWith.numbered init conns).after
                    (attempt (connectWith.numbered init conns)).2))).log⟩
      else
        ⟨(attempt (connectWith.numbered init conns)).1,
          store (connectRegister { init with addr := newAddr conns } conns).conns
            ((connectWith.numbered init conns).after
              (attempt (connectWith.numbered init conns)).2),
          (connectRegister { init with addr := newAddr conns } conns).log ++
            [Event.connConnect (newAddr conns)]⟩ := rfl
  rw [hunfold, hstore, hclean]
  by_cases hfail : (attempt (connectWith.numbered init conns)).1 = -1
  · simp only [if_pos hfail, if_true]
    exact ⟨trivial, fun _ => trivial, fun h => absurd hfail h⟩
  · simp only [if_neg hfail]
    exact ⟨trivial, fun h => absurd h hfail, fun _ => trivial⟩

/-- C21: with no other thread changing the registry during the attempt
(`during` is the identity), `connectWithPassword` and `connectWithKey` return
what the connection attempt returned; when that is `-1`, the vector
afterwards is the vector before the call, entry for entry; otherwise it is
the vector before the call followed by the new connection, as the attempt
left it. -/
theorem failed_connect_is_atomic (api : ConnApi) (init : Conn) (conns : List Conn) :
    ((api.connectWithPassword (connectWith.numbered init conns)).1 = -1 →
      (connectWithPassword api init id conns).val = -1 ∧
      (connectWithPassword api init id conns).conns = conns) ∧
    ((api.connectWithPassword (connectWith.numbered init conns)).1 ≠ -1 →
      (connectWithPassword api init id conns).val =
        (api.connectWithPassword (connectWith.numbered init conns)).1 ∧
      (connectWithPassword api init id conns).conns =
        conns ++ [(connectWith.numbered init conns).after
          (api.connectWithPassword (connectWith.numbered init conns)).2]) ∧
    ((api.connectWithKey (connectWith.numbered init conns)).1 = -1 →
      (connectWithKey api init id conns).val = -1 ∧
      (connectWithKey api init id conns).conns = conns) ∧
    ((api.connectWithKey (connectWith.numbered init conns)).1 ≠ -1 →
      (connectWithKey api init id conns).val =
        (api.connectWithKey (connectWith.numbered init conns)).1 ∧
      (connectWithKey api init id conns).conns =
        conns ++ [(connectWith.numbered init conns).after
          (api.connectWithKey (connectWith.numbered init conns)).2]) := by
  obtain ⟨p1, p2, p3⟩ := connectWith_alone api.connectWithPassword init conns
  obtain ⟨k1, k2, k3⟩ := connectWith_alone api.connectWithKey init conns
  refine ⟨?_, ?_, ?_, ?_⟩
  · intro h
    exact ⟨p1.trans h, p2 h⟩
  · intro h
    exact ⟨p1, p3 h⟩
  · intro h
    exact ⟨k1.trans h, k2 h⟩
  · intro h
    exact ⟨k1, k3 h⟩

theorem failed_connect_is_atomic_witness :
    (connectWithPassword failApi (mkConn 0 0) id [mkConn 7 1, mkConn 8 3]).val = -1 ∧
    (connectWithPassword failApi (mkConn 0 0) id [mkConn 7 1, mkConn 8 3]).conns =
      [mkConn 7 1, mkConn 8 3] ∧
    (connectWithKey okApi (mkConn 0 0) id [mkConn 7 1, mkConn 8 3]).val = 2 ∧
    (connectWithKey okApi (mkConn 0 0) id [mkConn 7 1, mkConn 8 3]).conns =
      [mkConn 7 1, mkConn 8 3, mkConn 9 2] :=
  have hf := (failed_connect_is_atomic failApi (mkConn 0 0) [mkConn 7 1, mkConn 8 3]).1
    (by decide)
  have hs := (failed_connect_is_atomic okApi (mkConn 0 0) [mkConn 7 1, mkConn 8 3]).2.2.2
    (by decide)
  ⟨hf.1, hf.2, hs.1.trans (by decide), hs.2.trans (by decide)⟩

/-! ## The destructor -/

theorem close_loop_map_key (api : ConnApi) (channel : Int) :
    ∀ (conns : List Conn) (status : Bool),
      (close.loop api channel conns status).conns.map (fun x => (x.addr, x.channelNo)) =
        conns.map (fun x => (x.addr, x.channelNo)) := by
  intro conns
  induction conns with
  | nil => intro status; rfl
  | cons a t ih =>
    intro status
    by_cases ha : (a.channelNo : Int) = channel
    · simp only [close.loop, if_pos ha, List.map_cons, ih, Conn.after]
    · simp only [close.loop, if_neg ha, List.map_cons, ih]

theorem close_map_key (api : ConnApi) (channel : Int) (conns : List Conn) :
    (close api channel conns).conns.map (fun x => (x.addr, x.channelNo)) =
      conns.map (fun x => (x.addr, x.channelNo)) := by
  unfold close
  split
  · rfl
  · exact close_loop_map_key api channel conns false

theorem close_log_sendClose (api : ConnApi) (channel : Int) (conns : List Conn) (a : Nat)
    (h : Event.connSendClose a ∈ (close api channel conns).log) :
    ∃ c ∈ conns, c.addr = a ∧ (c.channelNo : Int) = channel := by
  unfold close at h
  split at h
  · simp at h
  · simp only [close_loop_log, List.mem_append, List.mem_map, List.mem_filter,
      decide_eq_true_eq, List.mem_singleton, reduceCtorEq, or_false] at h
    obtain ⟨c, ⟨hc, hch⟩, he⟩ := h
    exact ⟨c, hc, Event.connSendClose.inj he, hch⟩

theorem destructor_closeLoop_log (api : ConnApi) :
    ∀ (fuel i : Nat) (conns : List Conn) (a : Nat),
      Event.connSendClose a ∈ (ne7ssh.destructor.closeLoop api fuel i conns).log →
      ∃ j, i ≤ j ∧ j < conns.length ∧
        ∃ c ∈ conns, c.addr = a ∧ (c.channelNo : Int) = toInt32 j := by
  intro fuel
  induction fuel with
  | zero =>
    intro i conns a h
    simp [ne7ssh.destructor.closeLoop] at h
  | succ n ih =>
    intro i conns a h
    rw [ne7ssh.destructor.closeLoop] at h
    split at h
    · rename_i hlt
      simp only [List.mem_append] at h
      rcases h with h | h
      · obtain ⟨c, hc, h1, h2⟩ := close_log_sendClose api (toInt32 i) conns a h
        exact ⟨i, le_refl _, hlt, c, hc, h1, h2⟩
      · obtain ⟨j, hj1, hj2, c, hc, h1, h2⟩ := ih (i + 1) _ a h
        have hkey := close_map_key api (toInt32 i) conns
        have hlen : (close api (toInt32 i) conns).conns.length = conns.length := by
          have := congrArg List.length hkey
          simpa using this
        have hmem : (c.addr, c.channelNo) ∈ conns.map (fun x => (x.addr, x.channelNo)) := by
          rw [← hkey]
          exact List.mem_map_of_mem _ hc
        obtain ⟨d, hd, hde⟩ := List.mem_map.mp hmem
        simp only [Prod.mk.injEq] at hde
        refine ⟨j, by omega, by omega, d, hd, hde.1.trans h1, ?_⟩
        rw [hde.2]
        exact h2
    · simp at h

theorem destructor_closes_below_size (api : ConnApi) (p : Process) (conns : List Conn)
    (a : Nat) (hsize : conns.length < 2 ^ 31)
    (h : Event.connSendClose a ∈ (ne7ssh.destructor api p conns).log) :
    ∃ c ∈ conns, c.addr = a ∧ c.channelNo < conns.length := by
  obtain ⟨j, _, hj, c, hc, h1, h2⟩ := destructor_closeLoop_log api conns.length 0 conns a h
  rw [toInt32_of_lt (by omega)] at h2
  refine ⟨c, hc, h1, ?_⟩
  have : c.channelNo = j := by exact_mod_cast h2
  omega

/-- C22, the code at the failing inputs.  The close loop of the destructor
calls `close(i)` with the index `i` of the loop, not with the channel number
of `_connections[i]`.  (1) The registry holds one connection, numbered 1: the
loop calls `close(0)`, which finds no connection numbered 0, and `sendClose`
is called on nothing before the vector is cleared.  (2) The registry holds
the connections numbered 1 and 2: the loop calls `close(0)` and `close(1)`,
so the first connection is sent a close and the second is not. -/
theorem destructor_closes_by_index :
    (ne7ssh.destructor okApi
      { errs := 1, errLog := [], running := true, rng := 3, threads := 1 }
      [mkConn 7 1]).log = [Event.errDeleteChannel 0] ∧
    (ne7ssh.destructor okApi
      { errs := 1, errLog := [], running := true, rng := 3, threads := 1 }
      [mkConn 7 1]).conns = [] ∧
    (ne7ssh.destructor okApi
      { errs := 1, errLog := [], running := true, rng := 3, threads := 1 }
      [mkConn 7 1, mkConn 8 2]).log =
      [Event.errDeleteChannel 0, Event.connSendClose 7, Event.errDeleteChannel 1] ∧
    Event.connSendClose 8 ∉ (ne7ssh.destructor okApi
      { errs := 1, errLog := [], running := true, rng := 3, threads := 1 }
      [mkConn 7 1, mkConn 8 2]).log :=
  ⟨by decide, by decide, by decide, by decide⟩

end Ne7ssh
